import Mathlib

/-!
Verification development for the Chronosanity key-item placement logic
(logicwriter_chronosanity.py).  The Python module is shallowly embedded:
mutable objects become immutable structures threaded through the functions,
the shared mutable lists and the module-global location-group registry become
components of an explicit solver state, and the random source becomes an
explicit list of naturals (each draw consumes one entry and reduces it into
the required range).  Recursion plus the unbounded retry loop are driven by
explicit fuel; `none` means the fuel ran out (the Python code would still be
running), `some` is a genuine return of the Python function.
-/

namespace Chronosanity

/-- Enum of the 15 key items, in Python definition order. -/
inductive KeyItems where
  | tomapop | hilt | blade | dreamstone | rubyknife | gatekey | jerky
  | pendant | moonstone | prismshard | grandleon | clone | ctrigger
  | heromedal | roboribbon
deriving DecidableEq, Repr, Fintype

/-- In-game item code of each key item (the Python enum value). -/
def KeyItems.val : KeyItems → Nat
  | .tomapop => 0xE3
  | .hilt => 0x51
  | .blade => 0x50
  | .dreamstone => 0xDC
  | .rubyknife => 0xE0
  | .gatekey => 0xD7
  | .jerky => 0xDB
  | .pendant => 0xD6
  | .moonstone => 0xDE
  | .prismshard => 0xD8
  | .grandleon => 0x42
  | .clone => 0xE2
  | .ctrigger => 0xD9
  | .heromedal => 0xB3
  | .roboribbon => 0xB8

/-- Iteration order of the Python KeyItems enum. -/
def allKeyItems : List KeyItems :=
  [.tomapop, .hilt, .blade, .dreamstone, .rubyknife, .gatekey, .jerky,
   .pendant, .moonstone, .prismshard, .grandleon, .clone, .ctrigger,
   .heromedal, .roboribbon]

/-- Enum of the 7 playable characters. -/
inductive Characters where
  | Crono | Marle | Lucca | Robo | Frog | Ayla | Magus
deriving DecidableEq, Repr, Fintype

/-- Loot tiers for baseline locations that fall back to treasure. -/
inductive LootTiers where
  | Mid | MidHigh | High
deriving DecidableEq, Repr

/-- The character-slot mapping handed to the solver (charLocations in the
Python code: slot name to character, via the character data structure whose
first entry is the character id). -/
structure CharSlots where
  start : Characters
  start2 : Characters
  cathedral : Characters
  castle : Characters
  proto : Characters
  dactyl : Characters
  burrow : Characters
deriving DecidableEq, Repr

/-- Game state tracker: acquired characters and key items (Python sets,
modelled as duplicate-free lists), the two mode flags and the slot mapping. -/
structure Game where
  characters : List Characters
  keyItems : List KeyItems
  earlyPendant : Bool
  lockedChars : Bool
  charLocations : CharSlots
deriving DecidableEq, Repr

namespace Game

/-- Game.__init__ followed by setEarlyPendant / setLockedCharacters. -/
def init (charlocs : CharSlots) (lockedChars earlyPendant : Bool) : Game :=
  ⟨[], [], earlyPendant, lockedChars, charlocs⟩

def getKeyItemCount (g : Game) : Nat := g.keyItems.length

def hasCharacter (g : Game) (c : Characters) : Bool := decide (c ∈ g.characters)

/-- set.add: adds the character when absent (idempotent). -/
def addCharacter (g : Game) (c : Characters) : Game :=
  if c ∈ g.characters then g else { g with characters := g.characters ++ [c] }

/-- set.discard. -/
def removeCharacter (g : Game) (c : Characters) : Game :=
  { g with characters := g.characters.erase c }

def hasKeyItem (g : Game) (i : KeyItems) : Bool := decide (i ∈ g.keyItems)

/-- set.add: adds the key item when absent (idempotent). -/
def addKeyItem (g : Game) (i : KeyItems) : Game :=
  if i ∈ g.keyItems then g else { g with keyItems := g.keyItems ++ [i] }

/-- set.discard. -/
def removeKeyItem (g : Game) (i : KeyItems) : Game :=
  { g with keyItems := g.keyItems.erase i }

def canAccessFuture (g : Game) : Bool := g.hasKeyItem .pendant

def canAccessPrehistory (g : Game) : Bool := g.hasKeyItem .gatekey

def canAccessDactylCharacter (g : Game) : Bool :=
  g.canAccessPrehistory && (!g.lockedChars || g.hasKeyItem .dreamstone)

def canAccessTyranoLair (g : Game) : Bool :=
  g.canAccessPrehistory && g.hasKeyItem .dreamstone

def hasMasamune (g : Game) : Bool :=
  g.hasKeyItem .hilt && g.hasKeyItem .blade

def canAccessMagusCastle (g : Game) : Bool :=
  g.hasMasamune && g.hasCharacter .Frog

def canAccessDarkAges (g : Game) : Bool :=
  g.canAccessTyranoLair || g.canAccessMagusCastle

def canAccessOceanPalace (g : Game) : Bool :=
  g.canAccessDarkAges && g.hasKeyItem .rubyknife

def canAccessBlackOmen (g : Game) : Bool :=
  g.canAccessFuture && g.hasKeyItem .clone && g.hasKeyItem .ctrigger

def canGetSunstone (g : Game) : Bool :=
  g.canAccessFuture && g.canAccessPrehistory && g.hasKeyItem .moonstone

def canAccessKingsTrial (g : Game) : Bool :=
  g.hasCharacter .Marle && g.hasKeyItem .prismshard

def canAccessMelchiorsRefinements (g : Game) : Bool :=
  g.canAccessKingsTrial && g.canGetSunstone

def canAccessGiantsClaw (g : Game) : Bool := g.hasKeyItem .tomapop

def canAccessRuins (g : Game) : Bool := g.hasKeyItem .grandleon

def canAccessSealedChests (g : Game) : Bool :=
  g.hasKeyItem .pendant && (g.earlyPendant || g.canAccessDarkAges)

def canAccessBurrowItem (g : Game) : Bool := g.hasKeyItem .heromedal

def canAccessFionasShrine (g : Game) : Bool := g.hasCharacter .Robo

/-- updateAvailableCharacters: the four slot characters are always granted,
the remaining three are progression gated. -/
def updateAvailableCharacters (g : Game) : Game :=
  let g := g.addCharacter g.charLocations.start
  let g := g.addCharacter g.charLocations.start2
  let g := g.addCharacter g.charLocations.cathedral
  let g := g.addCharacter g.charLocations.castle
  let g := if g.canAccessFuture then g.addCharacter g.charLocations.proto else g
  let g := if g.canAccessDactylCharacter then g.addCharacter g.charLocations.dactyl else g
  let g := if g.hasMasamune then g.addCharacter g.charLocations.burrow else g
  g

end Game

/-- A placement slot.  The Python Location / EventLocation / BaselineLocation
hierarchy is flattened: `pointer2` is present exactly for event and baseline
locations, `lootTier` exactly for baseline locations.  The mutable keyItem
field lives outside the record, in the solver state assignment map, so that
the aliasing of one Python object between a group and the chosenLocations
list is modelled faithfully (all pointers are globally distinct, see below).
-/
structure Location where
  name : String
  pointer : Nat
  pointer2 : Option Nat
  lootTier : Option LootTiers
deriving DecidableEq, Repr

/-- Location(name, pointer). -/
def Location.chest (name : String) (pointer : Nat) : Location :=
  ⟨name, pointer, none, none⟩

/-- EventLocation(name, pointer, pointer2). -/
def Location.event (name : String) (p1 p2 : Nat) : Location :=
  ⟨name, p1, some p2, none⟩

/-- BaselineLocation(name, pointer, pointer2, lootTier). -/
def Location.baseline (name : String) (p1 p2 : Nat) (t : LootTiers) : Location :=
  ⟨name, p1, some p2, some t⟩

/-- A group of locations sharing one access rule, one mutable weight and one
optional decay policy.  weightStack is the undo stack of prior weights; the
Python code pushes/pops at the list end, modelled here by the head of the
list (the same LIFO discipline). -/
structure LocationGroup where
  name : String
  weight : Nat
  accessRule : Game → Bool
  weightDecay : Option (Nat → Nat)
  weightStack : List Nat
  locations : List Location

namespace LocationGroup

/-- LocationGroup.__init__ : stores the given base weight unchecked. -/
def init (name : String) (weight : Nat) (accessRule : Game → Bool)
    (weightDecay : Option (Nat → Nat) := none) : LocationGroup :=
  ⟨name, weight, accessRule, weightDecay, [], []⟩

def canAccess (g : LocationGroup) (game : Game) : Bool := g.accessRule game

def getWeight (g : LocationGroup) : Nat := g.weight

/-- The weight cannot be set below 1. -/
def setWeight (g : LocationGroup) (w : Nat) : LocationGroup :=
  { g with weight := if w < 1 then 1 else w }

/-- Push the current weight, then reduce it: to 1 without a decay policy,
otherwise to the value of the policy. -/
def decayWeight (g : LocationGroup) : LocationGroup :=
  let g' := { g with weightStack := g.weight :: g.weightStack }
  match g.weightDecay with
  | none => g'.setWeight 1
  | some f => g'.setWeight (f g.weight)

/-- Pop the weight stack and restore, when the stack is nonempty. -/
def undoWeightDecay (g : LocationGroup) : LocationGroup :=
  match g.weightStack with
  | [] => g
  | w :: rest => { g.setWeight w with weightStack := rest }

def getAvailableLocationCount (g : LocationGroup) : Nat := g.locations.length

/-- Append the location unless already a member. -/
def addLocation (g : LocationGroup) (loc : Location) : LocationGroup :=
  if loc ∈ g.locations then g else { g with locations := g.locations ++ [loc] }

/-- list.remove: delete the first occurrence. -/
def removeLocation (g : LocationGroup) (loc : Location) : LocationGroup :=
  { g with locations := g.locations.erase loc }

def getLocations (g : LocationGroup) : List Location := g.locations

end LocationGroup

/-!  The static registry built by initLocationGroups, group by group, in
source order.  Each group is the addLocation chain from the source.  The
proportional decay policies int(weight * 0.2) and int(weight * 0.3) are
modelled as weight * 2 / 10 and weight * 3 / 10 (floor division); these agree
with the Python float computation at every weight value reachable here. -/

def darkagesLocations : LocationGroup :=
  LocationGroup.init "Darkages" 30 (fun game => game.canAccessDarkAges)
    |>.addLocation (Location.chest "Mt Woe 1st Screen" 0x35F770)
    |>.addLocation (Location.chest "Mt Woe 2nd Screen 1" 0x35F748)
    |>.addLocation (Location.chest "Mt Woe 2nd Screen 2" 0x35F74C)
    |>.addLocation (Location.chest "Mt Woe 2nd Screen 3" 0x35F750)
    |>.addLocation (Location.chest "Mt Woe 2nd Screen 4" 0x35F754)
    |>.addLocation (Location.chest "Mt Woe 2nd Screen 5" 0x35F758)
    |>.addLocation (Location.chest "Mt Woe 3rd Screen 1" 0x35F75C)
    |>.addLocation (Location.chest "Mt Woe 3rd Screen 2" 0x35F760)
    |>.addLocation (Location.chest "Mt Woe 3rd Screen 3" 0x35F764)
    |>.addLocation (Location.chest "Mt Woe 3rd Screen 4" 0x35F768)
    |>.addLocation (Location.chest "Mt Woe 3rd Screen 5" 0x35F76C)
    |>.addLocation (Location.chest "Mt Woe Final 1" 0x35F774)
    |>.addLocation (Location.chest "Mt Woe Final 2" 0x35F778)
    |>.addLocation (Location.baseline "Mount Woe" 0x381010 0x381013 .High)

def fionaShrineLocations : LocationGroup :=
  LocationGroup.init "Fionashrine" 2 (fun game => game.canAccessFionasShrine)
    |>.addLocation (Location.baseline "Fiona\x27s Shrine" 0x6EF5E 0x6EF61 .MidHigh)

def futureOpenLocations : LocationGroup :=
  LocationGroup.init "FutureOpen" 20 (fun game => game.canAccessFuture)
    |>.addLocation (Location.chest "Arris Dome" 0x35F5C8)
    |>.addLocation (Location.chest "Arris Dome Food Store" 0x35F744)
    |>.addLocation (Location.baseline "Arris Dome Doan" 0x392F4C 0x392F4E .MidHigh)
    |>.addLocation (Location.baseline "Sun Palace" 0x1B8D95 0x1B8D97 .MidHigh)

def futureSewersLocations : LocationGroup :=
  LocationGroup.init "FutureSewers" 9 (fun game => game.canAccessFuture)
    |>.addLocation (Location.chest "Sewers 1" 0x35F614)
    |>.addLocation (Location.chest "Sewers 2" 0x35F618)
    |>.addLocation (Location.chest "Sewers 3" 0x35F61C)

def futureLabLocations : LocationGroup :=
  LocationGroup.init "FutureLabs" 15 (fun game => game.canAccessFuture)
    |>.addLocation (Location.chest "Lab 16 1" 0x35F5B8)
    |>.addLocation (Location.chest "Lab 16 2" 0x35F5BC)
    |>.addLocation (Location.chest "Lab 16 3" 0x35F5C0)
    |>.addLocation (Location.chest "Lab 16 4" 0x35F5C4)
    |>.addLocation (Location.chest "Lab 32 1" 0x35F5E0)
    |>.addLocation (Location.chest "Prison Tower" 0x35F7DC)

def genoDomeLocations : LocationGroup :=
  LocationGroup.init "GenoDome" 33 (fun game => game.canAccessFuture)
    |>.addLocation (Location.chest "Geno Dome 1st Floor 1" 0x35F630)
    |>.addLocation (Location.chest "Geno Dome 1st Floor 2" 0x35F634)
    |>.addLocation (Location.chest "Geno Dome 1st Floor 3" 0x35F638)
    |>.addLocation (Location.chest "Geno Dome 1st Floor 4" 0x35F63C)
    |>.addLocation (Location.chest "Geno Dome Room 1" 0x35F640)
    |>.addLocation (Location.chest "Geno Dome Room 2" 0x35F644)
    |>.addLocation (Location.chest "Proto 4 Chamber 1" 0x35F648)
    |>.addLocation (Location.chest "Proto 4 Chamber 2" 0x35F64C)
    |>.addLocation (Location.chest "Geno Dome 2nd Floor 1" 0x35F668)
    |>.addLocation (Location.chest "Geno Dome 2nd Floor 2" 0x35F66C)
    |>.addLocation (Location.chest "Geno Dome 2nd Floor 3" 0x35F670)
    |>.addLocation (Location.chest "Geno Dome 2nd Floor 4" 0x35F674)
    |>.addLocation (Location.baseline "Geno Dome Mother Brain" 0x1B1844 0x1B1846 .MidHigh)

def factoryLocations : LocationGroup :=
  LocationGroup.init "Factory" 30 (fun game => game.canAccessFuture)
    |>.addLocation (Location.chest "Factory Ruins Left - Auxillary Console" 0x35F5E8)
    |>.addLocation (Location.chest "Factory Ruins Left - Security Center (Right)" 0x35F5EC)
    |>.addLocation (Location.chest "Factory Ruins Left - Security Center (Left)" 0x35F5F0)
    |>.addLocation (Location.chest "Factory Ruins Left - Power Core" 0x35F610)
    |>.addLocation (Location.chest "Factory Ruins Right - Data Core 1" 0x35F650)
    |>.addLocation (Location.chest "Factory Ruins Left - Data Core 2" 0x35F654)
    |>.addLocation (Location.chest "Factory Ruins Right - Factory Floor (Top)" 0x35F5F4)
    |>.addLocation (Location.chest "Factory Ruins Right - Factory Floor (Left)" 0x35F5F8)
    |>.addLocation (Location.chest "Factory Ruins Right - Factory Floor (Bottom)" 0x35F5FC)
    |>.addLocation (Location.chest "Factory Ruins Right - Factory Floor (Secret)" 0x35F600)
    |>.addLocation (Location.chest "Factory Ruins Right - Crane Control Room (lower)" 0x35F604)
    |>.addLocation (Location.chest "Factory Ruins Right - Crane Control Room (upper)" 0x35F608)
    |>.addLocation (Location.chest "Factory Ruins Right - Information Archive" 0x35F60C)

def giantsClawLocations : LocationGroup :=
  LocationGroup.init "Giantsclaw" 30 (fun game => game.canAccessGiantsClaw)
    |>.addLocation (Location.chest "Giant\x27s Claw Kino\x27s Cell" 0x35F468)
    |>.addLocation (Location.chest "Giant\x27s Claw Traps" 0x35F46C)
    |>.addLocation (Location.chest "Giant\x27s Claw Caves 1" 0x35F56C)
    |>.addLocation (Location.chest "Giant\x27s Claw Caves 2" 0x35F570)
    |>.addLocation (Location.chest "Giant\x27s Claw Caves 3" 0x35F574)
    |>.addLocation (Location.chest "Giant\x27s Claw Caves 4" 0x35F578)
    |>.addLocation (Location.chest "Giant\x27s Claw Caves 5" 0x35F57C)
    |>.addLocation (Location.chest "Giant\x27s Claw Caves 6" 0x35F580)
    |>.addLocation (Location.baseline "Giant\x27s Claw" 0x1B8AEC 0x1B8AEF .Mid)

def northernRuinsLocations : LocationGroup :=
  LocationGroup.init "NorthernRuins" 25
      (fun game => game.canAccessRuins && game.canAccessSealedChests)
    |>.addLocation (Location.event "Hero\x27s Grave 1" 0x1B03CD 0x1B03D0)
    |>.addLocation (Location.event "Hero\x27s Grave 2" 0x1B0401 0x1B0404)
    |>.addLocation (Location.event "Hero\x27s Grave 3" 0x393F8 0x393FF)

def guardiaTreasuryLocations : LocationGroup :=
  LocationGroup.init "GuardiaTreasury" 36 (fun game => game.canAccessKingsTrial)
    |>.addLocation (Location.chest "Guardia Basement 1" 0x35F41C)
    |>.addLocation (Location.chest "Guardia Basement 2" 0x35F420)
    |>.addLocation (Location.chest "Guardia Basement 3" 0x35F424)
    |>.addLocation (Location.chest "Guardia Treasury 1" 0x35F7A4)
    |>.addLocation (Location.chest "Guardia Treasury 2" 0x35F7A8)
    |>.addLocation (Location.chest "Guardia Treasury 3" 0x35F7AC)
    |>.addLocation (Location.baseline "King\x27s Trial" 0x38045D 0x38045F .High)

def earlyOzziesFortLocations : LocationGroup :=
  LocationGroup.init "Ozzie\x27s Fort Front" 6
      (fun game => game.canAccessFuture || game.canAccessPrehistory)
    |>.addLocation (Location.chest "Ozzie\x27s Fort Guillotines 1" 0x35F554)
    |>.addLocation (Location.chest "Ozzie\x27s Fort Guillotines 2" 0x35F558)
    |>.addLocation (Location.chest "Ozzie\x27s Fort Guillotines 3" 0x35F55C)
    |>.addLocation (Location.chest "Ozzie\x27s Fort Guillotines 4" 0x35F560)

def lateOzziesFortLocations : LocationGroup :=
  LocationGroup.init "Ozzie\x27s Fort Back" 6 (fun game => game.canAccessDarkAges)
    |>.addLocation (Location.chest "Ozzie\x27s Fort Final 1" 0x35F564)
    |>.addLocation (Location.chest "Ozzie\x27s Fort Final 2" 0x35F568)

def openLocations : LocationGroup :=
  LocationGroup.init "Open" 10 (fun _ => true) (some (fun weight => weight * 2 / 10))
    |>.addLocation (Location.chest "Truce Mayor\x27s House F1" 0x35F40C)
    |>.addLocation (Location.chest "Truce Mayor\x27s House F2" 0x35F410)
    |>.addLocation (Location.chest "Forest Ruins" 0x35F42C)
    |>.addLocation (Location.chest "Porre Mayor\x27s House F2" 0x35F440)
    |>.addLocation (Location.chest "Truce Canyon 1" 0x35F470)
    |>.addLocation (Location.chest "Truce Canyon 2" 0x35F474)
    |>.addLocation (Location.chest "Fiona\x27s House 1" 0x35F4FC)
    |>.addLocation (Location.chest "Fiona\x27s House 2" 0x35F500)
    |>.addLocation (Location.chest "Cursed Woods 1" 0x35F4A4)
    |>.addLocation (Location.chest "Cursed Woods 2" 0x35F4A8)
    |>.addLocation (Location.chest "Frog\x27s Burrow Right Chest" 0x35F4AC)

def openKeys : LocationGroup :=
  LocationGroup.init "OpenKeys" 5 (fun _ => true)
    |>.addLocation (Location.baseline "Zenan Bridge" 0x393C82 0x393C84 .Mid)
    |>.addLocation (Location.baseline "Snail Stop" 0x380C42 0x380C5B .Mid)
    |>.addLocation (Location.baseline "Lazy Carpenter" 0x3966B 0x3966D .Mid)

def heckranLocations : LocationGroup :=
  LocationGroup.init "Heckran" 4 (fun _ => true)
    |>.addLocation (Location.chest "Heckran Cave Sidetrack" 0x35F430)
    |>.addLocation (Location.chest "Heckran Cave Entrance" 0x35F434)
    |>.addLocation (Location.chest "Heckran Cave 1" 0x35F438)
    |>.addLocation (Location.chest "Heckran Cave 2" 0x35F43C)
    |>.addLocation (Location.baseline "Taban" 0x35F888 0x35F88A .Mid)

def guardiaCastleLocations : LocationGroup :=
  LocationGroup.init "GuardiaCastle" 3 (fun _ => true)
    |>.addLocation (Location.chest "King\x27s Room (Present)" 0x35F414)
    |>.addLocation (Location.chest "Queen\x27s Room (Present)" 0x35F418)
    |>.addLocation (Location.chest "King\x27s Room(Middle Ages)" 0x35F478)
    |>.addLocation (Location.chest "Queen\x27s Room(Middle Ages)" 0x35F47C)
    |>.addLocation (Location.chest "Royal Kitchen" 0x35F480)
    |>.addLocation (Location.chest "Queen\x27s Tower(Middle Ages)" 0x35F7B0)
    |>.addLocation (Location.chest "King\x27s Tower(Middle Ages)" 0x35F7CC)
    |>.addLocation (Location.chest "King\x27s Tower(Present)" 0x35F7D0)
    |>.addLocation (Location.chest "Queen\x27s Tower(Present)" 0x35F7D4)
    |>.addLocation (Location.chest "Guardia Court Tower" 0x35F7D8)

def cathedralLocations : LocationGroup :=
  LocationGroup.init "CathedralLocations" 6 (fun _ => true)
    |>.addLocation (Location.chest "Manoria Cathedral 1" 0x35F488)
    |>.addLocation (Location.chest "Manoria Cathedral 2" 0x35F48C)
    |>.addLocation (Location.chest "Manoria Cathedral 3" 0x35F490)
    |>.addLocation (Location.chest "Cathedral Interior 1" 0x35F494)
    |>.addLocation (Location.chest "Cathedral Interior 2" 0x35F498)
    |>.addLocation (Location.chest "Cathedral Interior 3" 0x35F49C)
    |>.addLocation (Location.chest "Cathedral Interior 4" 0x35F4A0)
    |>.addLocation (Location.chest "Manoria Shrine Sideroom 1" 0x35F588)
    |>.addLocation (Location.chest "Manoria Shrine Sideroom 2" 0x35F58C)
    |>.addLocation (Location.chest "Manoria Bromide Room 1" 0x35F590)
    |>.addLocation (Location.chest "Manoria Bromide Room 2" 0x35F594)
    |>.addLocation (Location.chest "Manoria Bromide Room 3" 0x35F598)
    |>.addLocation (Location.chest "Manoria Magus Shrine 1" 0x35F59C)
    |>.addLocation (Location.chest "Manoria Magus Shrine 2" 0x35F5A0)
    |>.addLocation (Location.chest "Yakra\x27s Room" 0x35F584)

def denadoroLocations : LocationGroup :=
  LocationGroup.init "DenadoroLocations" 6 (fun _ => true)
    |>.addLocation (Location.chest "Denadoro Mts Screen 2 1" 0x35F4B0)
    |>.addLocation (Location.chest "Denadoro Mts Screen 2 2" 0x35F4B4)
    |>.addLocation (Location.chest "Denadoro Mts Screen 2 3" 0x35F4B8)
    |>.addLocation (Location.chest "Denadoro Mts Final 1" 0x35F4BC)
    |>.addLocation (Location.chest "Denadoro Mts Final 2" 0x35F4C0)
    |>.addLocation (Location.chest "Denadoro Mts Final 3" 0x35F4C4)
    |>.addLocation (Location.chest "Denadoro Mts Waterfall Top 1" 0x35F4C8)
    |>.addLocation (Location.chest "Denadoro Mts Waterfall Top 2" 0x35F4CC)
    |>.addLocation (Location.chest "Denadoro Mts Waterfall Top 3" 0x35F4D0)
    |>.addLocation (Location.chest "Denadoro Mts Waterfall Top 4" 0x35F4D4)
    |>.addLocation (Location.chest "Denadoro Mts Waterfall Top 5" 0x35F4D8)
    |>.addLocation (Location.chest "Denadoro Mts Entrance 1" 0x35F4DC)
    |>.addLocation (Location.chest "Denadoro Mts Entrance 2" 0x35F4E0)
    |>.addLocation (Location.chest "Denadoro Mts Screen 3 1" 0x35F4E4)
    |>.addLocation (Location.chest "Denadoro Mts Screen 3 2" 0x35F4E8)
    |>.addLocation (Location.chest "Denadoro Mts Screen 3 3" 0x35F4EC)
    |>.addLocation (Location.chest "Denadoro Mts Screen 3 4" 0x35F4F0)
    |>.addLocation (Location.chest "Denadoro Mts Ambush" 0x35F4F4)
    |>.addLocation (Location.chest "Denadoro Mts Save Point" 0x35F4F8)
    |>.addLocation (Location.baseline "Denadoro Mountain" 0x3773F1 0x3773F3 .Mid)

def sealedLocations : LocationGroup :=
  LocationGroup.init "SealedLocations" 30 (fun game => game.canAccessSealedChests)
      (some (fun weight => weight * 3 / 10))
    |>.addLocation (Location.chest "Bangor Dome Seal 1" 0x35F5A4)
    |>.addLocation (Location.chest "Bangor Dome Seal 2" 0x35F5A8)
    |>.addLocation (Location.chest "Bangor Dome Seal 3" 0x35F5AC)
    |>.addLocation (Location.chest "Trann Dome Seal 1" 0x35F5B0)
    |>.addLocation (Location.chest "Trann Dome Seal 2" 0x35F5B4)
    |>.addLocation (Location.chest "Arris Dome Seal 1" 0x35F5CC)
    |>.addLocation (Location.chest "Arris Dome Seal 2" 0x35F5D0)
    |>.addLocation (Location.chest "Arris Dome Seal 3" 0x35F5D4)
    |>.addLocation (Location.chest "Arris Dome Seal 4" 0x35F5D8)
    |>.addLocation (Location.event "Truce Inn 600AD Sealed" 0x19FE7C 0x19FE83)
    |>.addLocation (Location.event "Porre Elder\x27s House 1 Sealed" 0x1B90EA 0x1B90F2)
    |>.addLocation (Location.event "Porre Elder\x27s House 2Sealed" 0x1B9123 0x1B9126)
    |>.addLocation (Location.event "Guardia Castle 600AD Sealed" 0x3AED24 0x3AED26)
    |>.addLocation (Location.event "Guardia Forest 600AD Sealed" 0x39633B 0x39633D)
    |>.addLocation (Location.event "Truce Inn 1000AD Sealed" 0xC3328 0xC332C)
    |>.addLocation (Location.event "Porre Mayor\x27s House Sealed 1" 0x1BACD6 0x1BACD8)
    |>.addLocation (Location.event "Porre Mayor\x27s House Sealed 2" 0x1BACF7 0x1BACF9)
    |>.addLocation (Location.event "Guardia Forest 1000AD Sealed" 0x3908B5 0x3908C9)
    |>.addLocation (Location.event "Guardia Castle 1000AD Sealed" 0x3AEF65 0x3AEF67)
    |>.addLocation (Location.event "Heckran\x27s Cave Sealed 1" 0x24EC29 0x24EC2B)
    |>.addLocation (Location.event "Heckran\x27s Cave Sealed 2" 0x24EC3B 0x24EC3D)

def magicCaveLocations : LocationGroup :=
  LocationGroup.init "Magic Cave" 4
      (fun game => game.canAccessSealedChests && game.canAccessMagusCastle)
    |>.addLocation (Location.event "Magic Cave" 0x1B31C7 0x1B31CA)

def prehistoryForestMazeLocations : LocationGroup :=
  LocationGroup.init "PrehistoryForestMaze" 18 (fun game => game.canAccessPrehistory)
    |>.addLocation (Location.chest "Mystic Mtn Stream" 0x35F678)
    |>.addLocation (Location.chest "Forest Maze 1" 0x35F67C)
    |>.addLocation (Location.chest "Forest Maze 2" 0x35F680)
    |>.addLocation (Location.chest "Forest Maze 3" 0x35F684)
    |>.addLocation (Location.chest "Forest Maze 4" 0x35F688)
    |>.addLocation (Location.chest "Forest Maze 5" 0x35F68C)
    |>.addLocation (Location.chest "Forest Maze 6" 0x35F690)
    |>.addLocation (Location.chest "Forest Maze 7" 0x35F694)
    |>.addLocation (Location.chest "Forest Maze 8" 0x35F698)
    |>.addLocation (Location.chest "Forest Maze 9" 0x35F69C)

def prehistoryReptiteLocations : LocationGroup :=
  LocationGroup.init "PrehistoryReptite" 27 (fun game => game.canAccessPrehistory)
    |>.addLocation (Location.chest "Reptite Lair Reptites 1" 0x35F6B8)
    |>.addLocation (Location.chest "Reptite Lair Reptites 2" 0x35F6BC)
    |>.addLocation (Location.baseline "Reptite Lair" 0x18FC04 0x18FC07 .MidHigh)

def prehistoryDactylNest : LocationGroup :=
  LocationGroup.init "PrehistoryDactylNest" 6 (fun game => game.canAccessPrehistory)
    |>.addLocation (Location.chest "Dactyl Nest 1" 0x35F6C0)
    |>.addLocation (Location.chest "Dactyl Nest 2" 0x35F6C4)
    |>.addLocation (Location.chest "Dactyl Nest 3" 0x35F6C8)

def melchiorsRefinementslocations : LocationGroup :=
  LocationGroup.init "MelchiorRefinements" 15
      (fun game => game.canAccessMelchiorsRefinements)
    |>.addLocation (Location.baseline "Melchior\x27s Refinements" 0x3805DE 0x3805E0 .High)

def frogsBurrowLocation : LocationGroup :=
  LocationGroup.init "FrogsBurrowLocation" 9 (fun game => game.canAccessBurrowItem)
    |>.addLocation (Location.baseline "Frog\x27s Burrow Left Chest" 0x3891DE 0x3891E0 .MidHigh)

/-- The registry, in the order the Python code appends the groups to the
module-global locationGroups list. -/
def initLocationGroups : List LocationGroup :=
  [prehistoryForestMazeLocations,
   prehistoryReptiteLocations,
   prehistoryDactylNest,
   darkagesLocations,
   fionaShrineLocations,
   giantsClawLocations,
   northernRuinsLocations,
   guardiaTreasuryLocations,
   openLocations,
   openKeys,
   heckranLocations,
   cathedralLocations,
   guardiaCastleLocations,
   denadoroLocations,
   magicCaveLocations,
   melchiorsRefinementslocations,
   frogsBurrowLocation,
   earlyOzziesFortLocations,
   lateOzziesFortLocations,
   futureOpenLocations,
   futureLabLocations,
   futureSewersLocations,
   genoDomeLocations,
   factoryLocations,
   sealedLocations]

/-- getInitialKeyItems: five copies of every item, cut to one copy of the
ruby knife / dreamstone / clone / trigger, three copies of hilt and blade,
and eight copies of gate key and pendant. -/
def getInitialKeyItems : List KeyItems :=
  let keyItemList := allKeyItems ++ allKeyItems ++ allKeyItems ++ allKeyItems ++ allKeyItems
  let keyItemList := keyItemList.filter (fun x => x != KeyItems.rubyknife)
  let keyItemList := keyItemList.filter (fun x => x != KeyItems.dreamstone)
  let keyItemList := keyItemList.filter (fun x => x != KeyItems.clone)
  let keyItemList := keyItemList.filter (fun x => x != KeyItems.ctrigger)
  let keyItemList := keyItemList ++
    [KeyItems.rubyknife, KeyItems.dreamstone, KeyItems.clone, KeyItems.ctrigger]
  let keyItemList := ((((keyItemList.erase .hilt).erase .hilt).erase .blade).erase .blade)
  keyItemList ++ [.gatekey, .gatekey, .gatekey, .pendant, .pendant, .pendant]

/-!  The solver.  Python mutates four things while placing key items: the
module-global locationGroups list, the Game object, the keyItem field of the
chosen Location objects, and the random source.  All four become components
of `SolveSt`.  The keyItem fields are kept in an assignment map keyed by the
location pointer (pointers are globally distinct in the registry, proved
below), which models the Python object aliasing: a location appended to
chosenLocations and later mutated by setKeyItem shows the new key item
through every reference. -/

/-- Solver state: registry, game tracker, key-item assignment of locations
(newest entry first, shadowing older ones like a mutated field), and the
stream of pending random draws. -/
structure SolveSt where
  registry : List LocationGroup
  game : Game
  kiMap : List (Nat × KeyItems)
  rng : List Nat

/-- Read the key item assigned to the location with pointer `p` (the
location.getKeyItem() of the mutable embedding). -/
def kiLookup : List (Nat × KeyItems) → Nat → Option KeyItems
  | [], _ => none
  | (q, v) :: rest, p => if q = p then some v else kiLookup rest p

/-- One draw from the random source.  An exhausted list keeps producing 0,
which is still a legal draw once reduced into range. -/
def nextRand : List Nat → Nat × List Nat
  | [] => (0, [])
  | a :: rest => (a, rest)

/-- getAvailableLocations: refresh the derived characters, then keep the
indices of the registry groups that are accessible and still nonempty. -/
def getAvailableLocations (game : Game) (reg : List LocationGroup) :
    Game × List Nat :=
  let game := game.updateAvailableCharacters
  (game, (List.range reg.length).filter (fun i =>
    match reg.get? i with
    | some g => g.canAccess game && decide (0 < g.getAvailableLocationCount)
    | none => false))

/-- The weight of the group at index `i`. -/
def weightAt (reg : List LocationGroup) (i : Nat) : Nat :=
  ((reg.get? i).map (·.weight)).getD 0

/-- The weighted group selection scan: accumulate the weights of the groups
in snapshot order and stop at the first index where the running sum reaches
the draw.  When the scan runs out (unreachable with positive weights and a
draw of at most the total) the Python loop variable is left at the last
group, hence the `[i]` base case. -/
def selectIdxAux (reg : List LocationGroup) (choice : Nat) :
    Nat → List Nat → Nat
  | _, [] => 0
  | _, [i] => i
  | counter, i :: rest =>
      let c := counter + weightAt reg i
      if choice ≤ c then i else selectIdxAux reg choice c rest

/-- The Python first-occurrence dedup loop that collapses the pool. -/
def pyDedupAux : List KeyItems → List KeyItems → List KeyItems
  | [], acc => acc
  | k :: rest, acc => pyDedupAux rest (if k ∈ acc then acc else acc ++ [k])

def pyDedup (l : List KeyItems) : List KeyItems := pyDedupAux l []

/-- The pruning rule: once exactly 10 distinct key items are in the Game
state, collapse the pool to one token per remaining variant. -/
def collapseStep (game : Game) (remaining : List KeyItems) : List KeyItems :=
  if game.getKeyItemCount = 10 then pyDedup remaining else remaining

/-- The pool handed to the recursive call and to any retry at this depth:
every token of the drawn variant `k` is removed, and on a retry iteration
one single token of the previous provisional variant is appended. -/
def postDrawPool (remaining1 : List KeyItems) (k : KeyItems)
    (keyItemTemp : Option KeyItems) : List KeyItems :=
  let remaining2 := remaining1.filter (fun x => x != k)
  match keyItemTemp with
  | none => remaining2
  | some kt => remaining2 ++ [kt]

/-- Undo the previous provisional location choice at this depth: return the
location to its group and undo the weight decay of the group. -/
def undoPrev (st : SolveSt) (prev : Option (Nat × Location)) : SolveSt :=
  match prev with
  | none => st
  | some (gi, loc) =>
    match st.registry.get? gi with
    | none => st
    | some g =>
      { st with registry := st.registry.set gi ((g.addLocation loc).undoWeightDecay) }

/-- The straight-line body of one iteration of the retry loop, from the
weighted group selection to the recursive call: select a group, draw a
location from it, remove it and decay the group weight, append the location
to chosenLocations, apply the pruning rule, draw a key item, remove all its
tokens, assign it to the location, add it to the Game state and undo the
previous provisional key item (one token back, removal from the Game state).
Returns the arguments of the recursive call together with the bookkeeping
(group index, location, key item) the next retry iteration needs.  `none`
models a Python exception from drawing out of an empty list (proved
unreachable below). -/
def doIteration (chosen : List Location) (remaining : List KeyItems)
    (st : SolveSt) (avail : List Nat) (keyItemTemp : Option KeyItems) :
    Option (List Location × List KeyItems × SolveSt × Nat × Location × KeyItems) :=
  let weightTotal := (avail.map (weightAt st.registry)).sum
  let n1 := nextRand st.rng
  let locationChoice := 1 + n1.1 % weightTotal
  let gi := selectIdxAux st.registry locationChoice 0 avail
  match st.registry.get? gi with
  | none => none
  | some g =>
    let n2 := nextRand n1.2
    match g.getLocations.get? (n2.1 % g.getLocations.length) with
    | none => none
    | some loc =>
      let g1 := (g.removeLocation loc).decayWeight
      let reg1 := st.registry.set gi g1
      let chosen1 := chosen ++ [loc]
      let remaining1 := collapseStep st.game remaining
      let n3 := nextRand n2.2
      match remaining1.get? (n3.1 % remaining1.length) with
      | none => none
      | some keyItem =>
        let kiMap1 := (loc.pointer, keyItem) :: st.kiMap
        let game1 := st.game.addKeyItem keyItem
        let remaining3 := postDrawPool remaining1 keyItem keyItemTemp
        let game2 := match keyItemTemp with
          | none => game1
          | some kt => game1.removeKeyItem kt
        some (chosen1, remaining3, ⟨reg1, game2, kiMap1, n3.2⟩, gi, loc, keyItem)

mutual

/-- determineKeyItemPlacement_impl.  Success (`some (true, …)`) returns the
accumulated chosenLocations; an empty accessible-group snapshot while items
remain returns `some (false, …)`; `none` is fuel exhaustion (the Python
function is still looping). -/
def impl : Nat → List Location → List KeyItems → SolveSt →
    Option (Bool × List Location × SolveSt)
  | 0, _, _, _ => none
  | fuel + 1, chosen, remaining, st =>
    if remaining = [] then some (true, chosen, st)
    else
      let p := getAvailableLocations st.game st.registry
      if p.2 = [] then some (false, chosen, { st with game := p.1 })
      else implLoop fuel chosen remaining { st with game := p.1 } p.2 none none

/-- The retry loop at one depth.  `prev` and `keyItemTemp` are the
locationGroup/location and keyItemTemp variables of the Python loop; the
snapshot `avail` is fixed for the whole depth.  On recursive failure the
loop retries with the chosenLocations, pool and state exactly as the failed
iteration left them, after queueing the provisional choice for undo. -/
def implLoop : Nat → List Location → List KeyItems → SolveSt → List Nat →
    Option (Nat × Location) → Option KeyItems →
    Option (Bool × List Location × SolveSt)
  | 0, _, _, _, _, _, _ => none
  | fuel + 1, chosen, remaining, st, avail, prev, keyItemTemp =>
    let st0 := undoPrev st prev
    match doIteration chosen remaining st0 avail keyItemTemp with
    | none => none
    | some (chosen1, remaining3, st1, gi, loc, keyItem) =>
      match impl fuel chosen1 remaining3 st1 with
      | none => none
      | some (confirmed, ret, st2) =>
        if confirmed then some (true, ret, st2)
        else implLoop fuel chosen1 remaining3 st2 avail (some (gi, loc)) (some keyItem)

end

/-- determineKeyItemPlacement: rebuild the registry, build a fresh Game from
the inputs and run the recursive placement on the full initial pool. -/
def determineKeyItemPlacement (fuel : Nat) (charlocs : CharSlots)
    (lockedChars earlyPendant : Bool) (rng : List Nat) :
    Option (Bool × List Location × SolveSt) :=
  impl fuel [] getInitialKeyItems
    ⟨initLocationGroups, Game.init charlocs lockedChars earlyPendant, [], rng⟩

/-!  Specification-level definitions used by the theorems below. -/

/-- All location pointers of the registry, in group order.  Pointers are the
identity of a location object: the theorem `registry_wellformed` below shows
they are globally distinct in the static registry. -/
def regPtrs (reg : List LocationGroup) : List Nat :=
  (reg.map (fun g => g.locations.map Location.pointer)).flatten

/-- Indices (in registry append order) of the six groups whose access rule
is the constant true function: Open, OpenKeys, Heckran, CathedralLocations,
GuardiaCastle and DenadoroLocations. -/
def alwaysIdx : List Nat := [8, 9, 10, 11, 12, 13]

/-- Total number of locations left in the six always-accessible groups. -/
def sixSum (reg : List LocationGroup) : Nat :=
  (alwaysIdx.map (fun i => ((reg.get? i).map (·.locations.length)).getD 0)).sum

/-- Solver invariant tying the chosenLocations accumulator, the remaining
pool and the state together.  It holds at the top-level call and is
preserved by every placement step. -/
structure Inv (chosen : List Location) (remaining : List KeyItems)
    (st : SolveSt) : Prop where
  nodupPtrs : (regPtrs st.registry).Nodup
  disj : ∀ l ∈ chosen, l.pointer ∉ regPtrs st.registry
  chosenNodup : (chosen.map Location.pointer).Nodup
  assigned : ∃ vs : List KeyItems,
    chosen.map (fun l => kiLookup st.kiMap l.pointer) = vs.map some ∧
    vs.Nodup ∧ ∀ v : KeyItems, v ∈ vs ↔ v ∉ remaining
  six : ∀ i ∈ alwaysIdx, ∃ g, st.registry.get? i = some g ∧
    ∀ gm : Game, g.accessRule gm = true
  sixCnt : 15 ≤ chosen.length + sixSum st.registry

/-- A successful result is a bijective placement: 15 entries, pairwise
distinct locations, and the assigned key items enumerate all 15 variants
exactly once. -/
def SolveOk (locs : List Location) (st : SolveSt) : Prop :=
  locs.length = 15 ∧ (locs.map Location.pointer).Nodup ∧
  (locs.map (fun l => kiLookup st.kiMap l.pointer)).Perm (allKeyItems.map some)

/-- The accessible-group snapshot handed to the retry loop is exactly the
filter getAvailableLocations computes from the current registry and game. -/
def AvailOk (avail : List Nat) (st : SolveSt) : Prop :=
  avail = (List.range st.registry.length).filter (fun i =>
    match st.registry.get? i with
    | some g => g.canAccess st.game && decide (0 < g.getAvailableLocationCount)
    | none => false)

/-- Induction statement for impl: under the invariant it never reports
failure, every success is a bijective placement, and fuel 2·(items left)+1
suffices to return. -/
def MainP (n : Nat) : Prop :=
  ∀ chosen remaining st, Inv chosen remaining st →
    (∀ locs st', impl n chosen remaining st ≠ some (false, locs, st')) ∧
    (∀ locs st', impl n chosen remaining st = some (true, locs, st') →
      SolveOk locs st') ∧
    (2 * (15 - chosen.length) + 1 ≤ n → (impl n chosen remaining st).isSome)

/-- Induction statement for the retry loop, entered with no pending undo. -/
def LoopP (n : Nat) : Prop :=
  ∀ chosen remaining st avail, Inv chosen remaining st → remaining ≠ [] →
    AvailOk avail st →
    (∀ locs st', implLoop n chosen remaining st avail none none ≠ some (false, locs, st')) ∧
    (∀ locs st', implLoop n chosen remaining st avail none none = some (true, locs, st') →
      SolveOk locs st') ∧
    (2 * (15 - chosen.length) ≤ n → (implLoop n chosen remaining st avail none none).isSome)

/-!  Concrete fixtures for witnesses and counterexamples. -/

/-- The location of the concrete group groupA below. -/
def locT : Location := Location.chest "Truce Mayor\x27s House F1" 0x35F40C

/-- A concrete character-slot mapping. -/
def cl0 : CharSlots := ⟨.Crono, .Marle, .Lucca, .Robo, .Frog, .Ayla, .Magus⟩

/-- A concrete random stream (all zeroes). -/
def rng0 : List Nat := List.replicate 60 0

def defaultSt : SolveSt := ⟨[], Game.init cl0 false false, [], []⟩

/-- A concrete full solver run. -/
def run0 : Option (Bool × List Location × SolveSt) :=
  determineKeyItemPlacement 40 cl0 false false rng0

def run0res : Bool × List Location × SolveSt := run0.getD (false, [], defaultSt)

/-- A location used to exhibit impl returning failure with a nonempty
chosenLocations argument. -/
def locA : Location := Location.chest "A" 1

/-- The module-global locationGroups list before initLocationGroups has run
is empty; with it every accessible-group snapshot is empty. -/
def stEmpty : SolveSt := ⟨[], Game.init cl0 false false, [], []⟩

/-- A group constructed with base weight 0: the constructor stores it
without any validation. -/
def groupX : LocationGroup := LocationGroup.init "X" 0 (fun _ => true) none

/-- Two groups holding the same location identity (same pointer): accepted
without any validation. -/
def groupA : LocationGroup :=
  (LocationGroup.init "A" 5 (fun _ => true) none).addLocation locT

def groupB : LocationGroup :=
  (LocationGroup.init "B" 5 (fun _ => true) none).addLocation locT

/-- A concrete group with the proportional decay policy of the Open group. -/
def groupW : LocationGroup :=
  LocationGroup.init "Open" 10 (fun _ => true) (some (fun weight => weight * 2 / 10))

/-- A concrete Game state holding exactly 10 distinct key items. -/
def game10 : Game :=
  { Game.init cl0 false false with
    keyItems := [.tomapop, .hilt, .blade, .dreamstone, .rubyknife,
                 .gatekey, .jerky, .pendant, .moonstone, .prismshard] }

/-- A concrete pool over the 5 variants missing from game10, with repeated
tokens. -/
def pool5 : List KeyItems :=
  [.grandleon, .clone, .clone, .ctrigger, .heromedal, .roboribbon, .roboribbon]

/-!  Basic lemmas about the LocationGroup operations. -/

lemma setWeight_weight (g : LocationGroup) (w : Nat) :
    (g.setWeight w).weight = if w < 1 then 1 else w := rfl

lemma one_le_setWeight (g : LocationGroup) (w : Nat) :
    1 ≤ (g.setWeight w).weight := by
  rw [setWeight_weight]; split <;> omega

lemma decayWeight_weightStack (g : LocationGroup) :
    g.decayWeight.weightStack = g.weight :: g.weightStack := by
  obtain ⟨n, w, r, d, s, l⟩ := g
  cases d <;> rfl

lemma decayWeight_accessRule (g : LocationGroup) :
    g.decayWeight.accessRule = g.accessRule := by
  obtain ⟨n, w, r, d, s, l⟩ := g
  cases d <;> rfl

lemma decayWeight_locations (g : LocationGroup) :
    g.decayWeight.locations = g.locations := by
  obtain ⟨n, w, r, d, s, l⟩ := g
  cases d <;> rfl

lemma one_le_decayWeight (g : LocationGroup) : 1 ≤ g.decayWeight.weight := by
  obtain ⟨n, w, r, d, s, l⟩ := g
  cases d <;> exact one_le_setWeight _ _

lemma undoWeightDecay_nil (g : LocationGroup) (h : g.weightStack = []) :
    g.undoWeightDecay = g := by
  obtain ⟨n, w, r, d, s, l⟩ := g
  cases s with
  | nil => rfl
  | cons a t => exact absurd h (by simp)

lemma undoWeightDecay_cons (g : LocationGroup) (w : Nat) (rest : List Nat)
    (h : g.weightStack = w :: rest) :
    g.undoWeightDecay = { g.setWeight w with weightStack := rest } := by
  obtain ⟨n, wt, r, d, s, l⟩ := g
  cases s with
  | nil => exact absurd h (by simp)
  | cons a t =>
    have h' : a :: t = w :: rest := h
    injection h' with h1 h2
    subst h1; subst h2
    rfl

lemma removeLocation_locations (g : LocationGroup) (loc : Location) :
    (g.removeLocation loc).locations = g.locations.erase loc := rfl

lemma stepGroup_locations (g : LocationGroup) (loc : Location) :
    ((g.removeLocation loc).decayWeight).locations = g.locations.erase loc := by
  rw [decayWeight_locations]; rfl

lemma stepGroup_accessRule (g : LocationGroup) (loc : Location) :
    ((g.removeLocation loc).decayWeight).accessRule = g.accessRule := by
  rw [decayWeight_accessRule]; rfl

/-!  Lemmas about the pool dedup and the pool transformations. -/

lemma pyDedupAux_mem (l : List KeyItems) :
    ∀ (acc : List KeyItems) (x : KeyItems),
      x ∈ pyDedupAux l acc ↔ x ∈ acc ∨ x ∈ l := by
  induction l with
  | nil => intro acc x; simp [pyDedupAux]
  | cons k rest ih =>
    intro acc x
    rw [pyDedupAux]
    by_cases hk : k ∈ acc
    · rw [if_pos hk, ih]
      simp only [List.mem_cons]
      constructor
      · rintro (h | h)
        · exact Or.inl h
        · exact Or.inr (Or.inr h)
      · rintro (h | rfl | h)
        · exact Or.inl h
        · exact Or.inl hk
        · exact Or.inr h
    · rw [if_neg hk, ih]
      simp only [List.mem_append, List.mem_singleton, List.mem_cons]
      tauto

lemma pyDedupAux_nodup (l : List KeyItems) :
    ∀ acc : List KeyItems, acc.Nodup → (pyDedupAux l acc).Nodup := by
  induction l with
  | nil => intro acc h; exact h
  | cons k rest ih =>
    intro acc h
    rw [pyDedupAux]
    by_cases hk : k ∈ acc
    · rw [if_pos hk]; exact ih acc h
    · rw [if_neg hk]
      refine ih (acc ++ [k]) ?_
      rw [List.nodup_append]
      exact ⟨h, List.nodup_singleton k, by simpa using hk⟩

lemma pyDedup_mem (l : List KeyItems) (x : KeyItems) :
    x ∈ pyDedup l ↔ x ∈ l := by
  rw [pyDedup, pyDedupAux_mem]; simp

lemma pyDedup_nodup (l : List KeyItems) : (pyDedup l).Nodup :=
  pyDedupAux_nodup l [] (by simp)

lemma pyDedup_count (l : List KeyItems) (x : KeyItems) :
    (pyDedup l).count x = if x ∈ l then 1 else 0 := by
  by_cases hx : x ∈ l
  · rw [if_pos hx]
    exact List.count_eq_one_of_mem (pyDedup_nodup l) ((pyDedup_mem l x).mpr hx)
  · rw [if_neg hx]
    exact List.count_eq_zero.mpr (fun h => hx ((pyDedup_mem l x).mp h))

lemma pyDedup_toFinset (l : List KeyItems) : (pyDedup l).toFinset = l.toFinset := by
  ext x; simp [pyDedup_mem]

lemma pyDedup_length (l : List KeyItems) :
    (pyDedup l).length = l.toFinset.card := by
  rw [← pyDedup_toFinset]
  exact (List.toFinset_card_of_nodup (pyDedup_nodup l)).symm

lemma collapseStep_mem (gm : Game) (l : List KeyItems) (x : KeyItems) :
    x ∈ collapseStep gm l ↔ x ∈ l := by
  unfold collapseStep
  split
  · exact pyDedup_mem l x
  · exact Iff.rfl

lemma collapseStep_ne_nil (gm : Game) (l : List KeyItems) (h : l ≠ []) :
    collapseStep gm l ≠ [] := by
  obtain ⟨x, hx⟩ := List.exists_mem_of_ne_nil l h
  exact List.ne_nil_of_mem ((collapseStep_mem gm l x).mpr hx)

lemma collapseStep_toFinset (gm : Game) (l : List KeyItems) :
    (collapseStep gm l).toFinset = l.toFinset := by
  ext x; simp [collapseStep_mem]

lemma postDrawPool_none_mem (l : List KeyItems) (k x : KeyItems) :
    x ∈ postDrawPool l k none ↔ x ∈ l ∧ x ≠ k := by
  simp [postDrawPool, List.mem_filter]

lemma postDrawPool_some_mem (l : List KeyItems) (k kt x : KeyItems) :
    x ∈ postDrawPool l k (some kt) ↔ (x ∈ l ∧ x ≠ k) ∨ x = kt := by
  simp [postDrawPool, List.mem_filter]

lemma postDrawPool_none_toFinset (l : List KeyItems) (k : KeyItems) :
    (postDrawPool l k none).toFinset = l.toFinset.erase k := by
  ext x; simp [postDrawPool_none_mem, Finset.mem_erase, and_comm]

lemma postDrawPool_some_toFinset (l : List KeyItems) (k kt : KeyItems) :
    (postDrawPool l k (some kt)).toFinset = insert kt (l.toFinset.erase k) := by
  ext x
  simp only [List.mem_toFinset, postDrawPool_some_mem, Finset.mem_insert,
    Finset.mem_erase]
  tauto

lemma postDrawPool_some_count (l : List KeyItems) (k kt : KeyItems)
    (h : kt ∉ l) : (postDrawPool l k (some kt)).count kt = 1 := by
  rw [postDrawPool]
  rw [List.count_append]
  have h0 : (l.filter (fun x => x != k)).count kt = 0 :=
    List.count_eq_zero.mpr (fun hm => h (List.mem_of_mem_filter hm))
  simp [h0]

lemma not_mem_erase_self {α : Type} [DecidableEq α] (l : List α) (a : α)
    (h : l.Nodup) : a ∉ l.erase a := by
  intro hm
  have h1 : (l.erase a).count a = l.count a - 1 := List.count_erase_self a l
  have h2 : 0 < (l.erase a).count a := List.count_pos_iff.mpr hm
  have h3 : l.count a ≤ 1 := List.nodup_iff_count_le_one.mp h a
  omega

/-!  Claim theorems about the LocationGroup operations and the static data. -/

/-- C7: for a LocationGroup with weight ≥ 1 the invariant weight ≥ 1 is
preserved by every operation: setWeight clamps any argument below 1 up to 1
and always yields a weight ≥ 1, decayWeight yields a weight ≥ 1 under the
default drop-to-one policy or any proportional policy (the decay policy of
the group is arbitrary here), and undoWeightDecay yields a weight ≥ 1, so
the weight stays ≥ 1 at all times. -/
theorem weight_ge_one_invariant (g : LocationGroup) (h : 1 ≤ g.weight) :
    (∀ w, w < 1 → (g.setWeight w).weight = 1) ∧
    (∀ w, 1 ≤ (g.setWeight w).weight) ∧
    1 ≤ g.decayWeight.weight ∧
    1 ≤ g.undoWeightDecay.weight := by
  refine ⟨?_, fun w => one_le_setWeight g w, one_le_decayWeight g, ?_⟩
  · intro w hw; rw [setWeight_weight, if_pos hw]
  · cases hs : g.weightStack with
    | nil => rw [undoWeightDecay_nil g hs]; exact h
    | cons a t =>
      rw [undoWeightDecay_cons g a t hs]
      exact one_le_setWeight g a

/-- Witness for C7 at the concrete group groupW (weight 10, proportional
decay policy). -/
theorem weight_ge_one_invariant_witness :
    1 ≤ groupW.weight ∧ 1 ≤ groupW.decayWeight.weight :=
  ⟨by decide, (weight_ge_one_invariant groupW (by decide)).2.2.1⟩

/-- C8: decayWeight immediately followed by undoWeightDecay restores the
exact prior weight (and the prior undo stack), for any group with current
weight ≥ 1 and any decay policy (drop-to-one or proportional; the policy of
the group is arbitrary here). -/
theorem decay_undo_roundtrip (g : LocationGroup) (h : 1 ≤ g.weight) :
    (g.decayWeight.undoWeightDecay).weight = g.weight ∧
    (g.decayWeight.undoWeightDecay).weightStack = g.weightStack := by
  have hs := decayWeight_weightStack g
  rw [undoWeightDecay_cons _ _ _ hs]
  constructor
  · show (g.decayWeight.setWeight g.weight).weight = g.weight
    rw [setWeight_weight, if_neg (by omega)]
  · rfl

/-- Witness for C8 at the concrete group groupW. -/
theorem decay_undo_roundtrip_witness :
    (groupW.decayWeight.undoWeightDecay).weight = groupW.weight :=
  (decay_undo_roundtrip groupW (by decide)).1

/-- C10: undoWeightDecay on a group whose undo stack is empty is a harmless
no-op: it returns the group unchanged, every field included. -/
theorem undo_empty_stack_noop (g : LocationGroup) (h : g.weightStack = []) :
    g.undoWeightDecay = g :=
  undoWeightDecay_nil g h

/-- Witness for C10 at the concrete group groupW (empty stack). -/
theorem undo_empty_stack_noop_witness : groupW.undoWeightDecay = groupW :=
  undo_empty_stack_noop groupW rfl

/-- C5: getInitialKeyItems is exactly the fixed 61-token multiset over the
15 variants: 5 each of tomapop, jerky, moonstone, prismshard, grandleon,
heromedal, roboribbon; 3 each of hilt and blade; 1 each of dreamstone,
rubyknife, clone, ctrigger; 8 each of gatekey and pendant. -/
theorem initial_pool_composition :
    getInitialKeyItems.length = 61 ∧
    getInitialKeyItems.count .tomapop = 5 ∧
    getInitialKeyItems.count .jerky = 5 ∧
    getInitialKeyItems.count .moonstone = 5 ∧
    getInitialKeyItems.count .prismshard = 5 ∧
    getInitialKeyItems.count .grandleon = 5 ∧
    getInitialKeyItems.count .heromedal = 5 ∧
    getInitialKeyItems.count .roboribbon = 5 ∧
    getInitialKeyItems.count .hilt = 3 ∧
    getInitialKeyItems.count .blade = 3 ∧
    getInitialKeyItems.count .dreamstone = 1 ∧
    getInitialKeyItems.count .rubyknife = 1 ∧
    getInitialKeyItems.count .clone = 1 ∧
    getInitialKeyItems.count .ctrigger = 1 ∧
    getInitialKeyItems.count .gatekey = 8 ∧
    getInitialKeyItems.count .pendant = 8 := by decide

lemma init_weights_ge_one : ∀ g ∈ initLocationGroups, 1 ≤ g.weight := by decide

set_option maxRecDepth 40000 in
lemma regPtrs_init_nodup : (regPtrs initLocationGroups).Nodup := by decide

/-- C6 counterexample: registry construction performs no validation and has
no error path. A LocationGroup constructed with non-positive base weight 0
is accepted and stores weight 0, and two groups holding the same location
identity (pointer 0x35F40C in groupA and groupB) build a registry with a
duplicated pointer without any error. -/
theorem registry_construction_unchecked :
    groupX.weight = 0 ∧
    regPtrs [groupA, groupB] = [0x35F40C, 0x35F40C] ∧
    ¬ (regPtrs [groupA, groupB]).Nodup := by decide

/-- C6 (amended): no InvalidConfiguration detection exists anywhere in
registry construction; instead the static registry is well-formed by
construction, so the malformed cases never arise: every base weight in
initLocationGroups is ≥ 1 and no location pointer occurs in more than one
group (the full pointer list is duplicate-free). -/
theorem registry_wellformed_no_validation :
    (∀ g ∈ initLocationGroups, 1 ≤ g.weight) ∧
    (regPtrs initLocationGroups).Nodup :=
  ⟨init_weights_ge_one, regPtrs_init_nodup⟩

/-- C4: at the point where the Game state records exactly 10 distinct key
items, the pool-collapse step replaces the pool by its first-occurrence
dedup: exactly one token per remaining distinct variant (any weighting is
discarded), and when exactly 5 distinct variants remain unplaced the
collapsed pool holds exactly 5 tokens, one per variant. -/
theorem pool_collapse_at_ten (game : Game) (remaining : List KeyItems)
    (h : game.getKeyItemCount = 10) :
    (∀ v : KeyItems, (collapseStep game remaining).count v
        = if v ∈ remaining then 1 else 0) ∧
    (collapseStep game remaining).toFinset = remaining.toFinset ∧
    (remaining.toFinset.card = 5 → (collapseStep game remaining).length = 5) := by
  have hc : collapseStep game remaining = pyDedup remaining := by
    rw [collapseStep, if_pos h]
  refine ⟨?_, ?_, ?_⟩
  · intro v; rw [hc]; exact pyDedup_count remaining v
  · rw [hc]; exact pyDedup_toFinset remaining
  · intro h5; rw [hc, pyDedup_length, h5]

/-- Witness for C4 at the concrete game10 (10 distinct items) and pool5
(7 tokens over 5 variants). -/
theorem pool_collapse_at_ten_witness :
    game10.getKeyItemCount = 10 ∧ (collapseStep game10 pool5).length = 5 :=
  ⟨by decide, (pool_collapse_at_ten game10 pool5 (by decide)).2.2 (by decide)⟩

/-- C3 counterexample: in a retry iteration the previous provisional
variant is not restored in full before the next draw. With previous
provisional item tomapop (keyItemTemp) and current pool [jerky]: the pool
at the moment of the next key-item draw contains zero tomapop tokens, and
the pool the iteration passes on contains exactly one tomapop token, while
tomapop holds 5 tokens in the initial pool — the code appends one single
token after the draw instead of restoring the full count before it. -/
theorem retry_single_token_cex :
    ([KeyItems.jerky] : List KeyItems).count .tomapop = 0 ∧
    postDrawPool [KeyItems.jerky] .jerky (some .tomapop) = [.tomapop] ∧
    getInitialKeyItems.count .tomapop = 5 := by decide

/-- C3 (amended): on a retry iteration the location part of the undo is
complete and happens before the next weighted selection — the location
returns to its group and the weight decay is undone, restoring the exact
prior weight and undo stack — but the key-item part is partial and late:
the previous provisional key item is removed from the Game state, yet only
one single token of its variant returns to the pool, appended only after
the next key-item draw, so pool multiplicities are not restored. -/
theorem retry_undo_incomplete :
    (∀ (g : LocationGroup) (loc : Location), 1 ≤ g.weight →
      loc ∈ g.locations → g.locations.Nodup →
      ((((g.removeLocation loc).decayWeight).addLocation loc).undoWeightDecay).weight
          = g.weight ∧
      ((((g.removeLocation loc).decayWeight).addLocation loc).undoWeightDecay).locations
          = g.locations.erase loc ++ [loc] ∧
      ((((g.removeLocation loc).decayWeight).addLocation loc).undoWeightDecay).weightStack
          = g.weightStack) ∧
    (∀ (pool : List KeyItems) (k kt : KeyItems), kt ∉ pool →
      (postDrawPool pool k (some kt)).count kt = 1) := by
  constructor
  · intro g loc hw hmem hnd
    have hni : loc ∉ g.locations.erase loc := not_mem_erase_self g.locations loc hnd
    obtain ⟨n, w, r, d, s, l⟩ := g
    have hw' : 1 ≤ w := hw
    have hni' : loc ∉ l.erase loc := hni
    cases d <;>
      simp [LocationGroup.removeLocation, LocationGroup.decayWeight,
        LocationGroup.setWeight, LocationGroup.addLocation,
        LocationGroup.undoWeightDecay, hni'] <;>
      omega
  · intro pool k kt h
    exact postDrawPool_some_count pool k kt h

/-- Witness for C3 (amended) at the concrete group groupA and a concrete
retry pool. -/
theorem retry_undo_incomplete_witness :
    ((((groupA.removeLocation locT).decayWeight).addLocation locT).undoWeightDecay).weight
        = groupA.weight ∧
    (postDrawPool [KeyItems.jerky] .jerky (some .tomapop)).count .tomapop = 1 :=
  ⟨(retry_undo_incomplete.1 groupA locT (by decide) (by decide) (by decide)).1,
   retry_undo_incomplete.2 [KeyItems.jerky] .jerky .tomapop (by decide)⟩

/-- C2 (amended): when determineKeyItemPlacement_impl finds the
accessible-group snapshot empty while key items remain, it returns a false
success flag together with the chosenLocations accumulator exactly as
passed in (not a fresh empty list); the top-level determineKeyItemPlacement
call starts the accumulator empty, so a top-level failure carries an empty
placement list. -/
theorem impl_failure_returns_accumulator :
    (∀ (fuel : Nat) (chosen : List Location) (remaining : List KeyItems) (st : SolveSt),
      remaining ≠ [] →
      (getAvailableLocations st.game st.registry).2 = [] →
      impl (fuel + 1) chosen remaining st
        = some (false, chosen,
            { st with game := (getAvailableLocations st.game st.registry).1 })) ∧
    (∀ (fuel : Nat) (charlocs : CharSlots) (lc ep : Bool) (rng : List Nat),
      determineKeyItemPlacement fuel charlocs lc ep rng
        = impl fuel [] getInitialKeyItems
            ⟨initLocationGroups, Game.init charlocs lc ep, [], rng⟩) := by
  constructor
  · intro fuel chosen remaining st hrem hav
    simp only [impl, if_neg hrem]
    rw [if_pos hav]
  · intro fuel charlocs lc ep rng; rfl

/-- Witness for C2 (amended) at a concrete state: empty registry (the
module-global locationGroups before initLocationGroups has run), one
remaining key item, and a nonempty accumulator. -/
theorem impl_failure_returns_accumulator_witness :
    impl 6 [locA] [KeyItems.tomapop] stEmpty
      = some (false, [locA],
          { stEmpty with game := (getAvailableLocations stEmpty.game stEmpty.registry).1 }) :=
  impl_failure_returns_accumulator.1 5 [locA] [KeyItems.tomapop] stEmpty
    (by decide) (by decide)

/-- C2 counterexample: impl called with a nonempty chosenLocations
accumulator, one remaining key item and an empty accessible-group snapshot
(empty registry) returns false together with the nonempty accumulator — not
an empty placement list as the claim states. -/
theorem impl_failure_list_nonempty :
    (impl 6 [locA] [KeyItems.tomapop] stEmpty).map (fun r => (r.1, r.2.1))
        = some (false, [locA]) ∧ ([locA] : List Location) ≠ [] := by
  constructor
  · decide
  · decide

/-!  Helper lemmas on get?/set, erase under map, and the registry pointer
list, used by the solver invariant proof. -/

lemma get?_set_self {α : Type} (l : List α) (i : Nat) (a : α) :
    (l.set i a).get? i = (l.get? i).map (fun _ => a) := by
  induction l generalizing i with
  | nil => simp
  | cons b t ih =>
    cases i with
    | zero => rfl
    | succ j => simpa using ih j

lemma get?_set_ne {α : Type} (l : List α) (i j : Nat) (a : α) (h : i ≠ j) :
    (l.set i a).get? j = l.get? j := by
  induction l generalizing i j with
  | nil => simp
  | cons b t ih =>
    cases i with
    | zero =>
      cases j with
      | zero => exact absurd rfl h
      | succ j' => rfl
    | succ i' =>
      cases j with
      | zero => rfl
      | succ j' => simpa using ih i' j' (fun he => h (by rw [he]))

lemma lt_of_get?_some {α : Type} {l : List α} {i : Nat} {a : α}
    (h : l.get? i = some a) : i < l.length := by
  by_contra h'
  rw [List.get?_eq_none.mpr (by omega)] at h
  exact Option.noConfusion h

lemma map_erase_of_nodup_map {α β : Type} [DecidableEq α] [DecidableEq β]
    (f : α → β) (l : List α) (a : α) (ha : a ∈ l) (hnd : (l.map f).Nodup) :
    (l.erase a).map f = (l.map f).erase (f a) := by
  induction l with
  | nil => simp at ha
  | cons b t ih =>
    by_cases hba : b = a
    · subst hba
      rw [List.erase_cons_head, List.map_cons, List.erase_cons_head]
    · have hat : a ∈ t := by
        rcases List.mem_cons.mp ha with h | h
        · exact absurd h.symm hba
        · exact h
      rw [List.map_cons, List.nodup_cons] at hnd
      obtain ⟨hfb, hnd'⟩ := hnd
      have hfba : f b ≠ f a := fun he => hfb (he ▸ List.mem_map_of_mem f hat)
      rw [show ((b :: t).erase a) = b :: t.erase a by
            rw [List.erase_cons]; simp [hba],
          List.map_cons, List.map_cons,
          show ((f b :: t.map f).erase (f a)) = f b :: (t.map f).erase (f a) by
            rw [List.erase_cons]; simp [hfba],
          ih hat hnd']

lemma regPtrs_cons (g : LocationGroup) (t : List LocationGroup) :
    regPtrs (g :: t) = g.locations.map Location.pointer ++ regPtrs t := rfl

lemma mem_regPtrs_of_get? :
    ∀ (reg : List LocationGroup) (gi : Nat) (g : LocationGroup) (loc : Location),
      reg.get? gi = some g → loc ∈ g.locations → loc.pointer ∈ regPtrs reg := by
  intro reg
  induction reg with
  | nil => intro gi g loc h hm; cases gi <;> exact Option.noConfusion h
  | cons b t ih =>
    intro gi g loc h hm
    rw [regPtrs_cons]
    cases gi with
    | zero =>
      have hb : b = g := by injection h
      exact List.mem_append.mpr (Or.inl (hb ▸ List.mem_map_of_mem _ hm))
    | succ gi' =>
      exact List.mem_append.mpr (Or.inr (ih gi' g loc h hm))

/-- Replacing the group at index gi by one whose location list is the
original with one member erased keeps the registry pointer list
duplicate-free, removes that pointer entirely from the registry, and adds
no new pointer. -/
lemma registry_set_erase :
    ∀ (reg : List LocationGroup) (gi : Nat) (g g1 : LocationGroup) (loc : Location),
      reg.get? gi = some g → loc ∈ g.locations →
      g1.locations = g.locations.erase loc →
      (regPtrs reg).Nodup →
      (regPtrs (reg.set gi g1)).Nodup ∧
      loc.pointer ∉ regPtrs (reg.set gi g1) ∧
      (∀ p, p ∈ regPtrs (reg.set gi g1) → p ∈ regPtrs reg) := by
  intro reg
  induction reg with
  | nil => intro gi g g1 loc h; cases gi <;> exact absurd h (by simp)
  | cons b t ih =>
    intro gi g g1 loc h hmem hg1 hnd
    rw [regPtrs_cons, List.nodup_append] at hnd
    obtain ⟨hnd1, hnd2, hdisj⟩ := hnd
    cases gi with
    | zero =>
      have hb : b = g := by injection h
      subst hb
      have hptr : g1.locations.map Location.pointer
          = (b.locations.map Location.pointer).erase loc.pointer := by
        rw [hg1]; exact map_erase_of_nodup_map _ _ _ hmem hnd1
      rw [show (b :: t).set 0 g1 = g1 :: t from rfl, regPtrs_cons, hptr]
      refine ⟨?_, ?_, ?_⟩
      · rw [List.nodup_append]
        exact ⟨hnd1.erase _, hnd2,
          fun p hp hpt => hdisj (List.mem_of_mem_erase hp) hpt⟩
      · rw [List.mem_append]
        rintro (hp | hp)
        · exact not_mem_erase_self _ _ hnd1 hp
        · exact hdisj (List.mem_map_of_mem _ hmem) hp
      · intro p hp
        rcases List.mem_append.mp hp with hp | hp
        · exact List.mem_append.mpr (Or.inl (List.mem_of_mem_erase hp))
        · exact List.mem_append.mpr (Or.inr hp)
    | succ gi' =>
      obtain ⟨ih1, ih2, ih3⟩ := ih gi' g g1 loc h hmem hg1 hnd2
      rw [show (b :: t).set (gi' + 1) g1 = b :: t.set gi' g1 from rfl, regPtrs_cons]
      refine ⟨?_, ?_, ?_⟩
      · rw [List.nodup_append]
        exact ⟨hnd1, ih1, fun p hp hpt => hdisj hp (ih3 p hpt)⟩
      · rw [List.mem_append]
        rintro (hp | hp)
        · exact hdisj hp (mem_regPtrs_of_get? t gi' g loc h hmem)
        · exact ih2 hp
      · intro p hp
        rcases List.mem_append.mp hp with hp | hp
        · exact List.mem_append.mpr (Or.inl hp)
        · exact List.mem_append.mpr (Or.inr (ih3 p hp))

/-!  Sum lemmas for the always-accessible location budget. -/

lemma sum_map_le_set (l : List Nat) (hnd : l.Nodup) (f f' : Nat → Nat) (j : Nat)
    (hj : f j ≤ f' j + 1) (hothers : ∀ i ∈ l, i ≠ j → f' i = f i) :
    (l.map f).sum ≤ (l.map f').sum + 1 := by
  induction l with
  | nil => simp
  | cons i t ih =>
    rw [List.nodup_cons] at hnd
    obtain ⟨hit, hndt⟩ := hnd
    simp only [List.map_cons, List.sum_cons]
    by_cases hij : i = j
    · subst hij
      have heq : t.map f' = t.map f :=
        List.map_congr_left (fun x hx =>
          hothers x (List.mem_cons_of_mem _ hx) (fun he => hit (he ▸ hx)))
      rw [heq]
      omega
    · have hfi : f' i = f i := hothers i (List.mem_cons_self _ _) hij
      have hih := ih hndt (fun x hx hxj => hothers x (List.mem_cons_of_mem _ hx) hxj)
      omega

lemma sum_pos_exists (l : List Nat) (f : Nat → Nat) (h : 0 < (l.map f).sum) :
    ∃ i ∈ l, 0 < f i := by
  induction l with
  | nil => simp at h
  | cons i t ih =>
    simp only [List.map_cons, List.sum_cons] at h
    by_cases hi : 0 < f i
    · exact ⟨i, List.mem_cons_self _ _, hi⟩
    · obtain ⟨j, hj, hfj⟩ := ih (by omega)
      exact ⟨j, List.mem_cons_of_mem _ hj, hfj⟩

lemma alwaysIdx_nodup : alwaysIdx.Nodup := by decide

lemma sixSum_set (reg : List LocationGroup) (gi : Nat) (g g1 : LocationGroup)
    (hg : reg.get? gi = some g)
    (hle : g.locations.length ≤ g1.locations.length + 1) :
    sixSum reg ≤ sixSum (reg.set gi g1) + 1 := by
  apply sum_map_le_set alwaysIdx alwaysIdx_nodup _ _ gi
  · rw [hg, get?_set_self, hg]
    simpa using hle
  · intro i hi hij
    rw [get?_set_ne reg gi i g1 (fun he => hij he.symm)]

lemma six_set (reg : List LocationGroup) (gi : Nat) (g g1 : LocationGroup)
    (hg : reg.get? gi = some g)
    (hrule : g1.accessRule = g.accessRule)
    (hsix : ∀ i ∈ alwaysIdx, ∃ g', reg.get? i = some g' ∧
      ∀ gm : Game, g'.accessRule gm = true) :
    ∀ i ∈ alwaysIdx, ∃ g', (reg.set gi g1).get? i = some g' ∧
      ∀ gm : Game, g'.accessRule gm = true := by
  intro i hi
  obtain ⟨g', hg', hr'⟩ := hsix i hi
  by_cases hgi : gi = i
  · subst hgi
    refine ⟨g1, ?_, ?_⟩
    · rw [get?_set_self, hg]; rfl
    · have hgg : g = g' := by rw [hg] at hg'; injection hg'
      intro gm; rw [hrule, hgg]; exact hr' gm
  · rw [get?_set_ne _ _ _ _ hgi]
    exact ⟨g', hg', hr'⟩

/-!  Invariant lemmas. -/

lemma allKeyItems_nodup : allKeyItems.Nodup := by decide

lemma all_mem_allKeyItems : ∀ v : KeyItems, v ∈ allKeyItems := by decide

lemma card_keyItems : Fintype.card KeyItems = 15 := by decide

lemma all_mem_getInitialKeyItems : ∀ v : KeyItems, v ∈ getInitialKeyItems := by
  decide

lemma sixSum_init : sixSum initLocationGroups = 64 := by decide

lemma kiLookup_cons (q : Nat) (v : KeyItems) (m : List (Nat × KeyItems)) (p : Nat) :
    kiLookup ((q, v) :: m) p = if q = p then some v else kiLookup m p := rfl

lemma inv_chosen_le14 (chosen : List Location) (remaining : List KeyItems)
    (st : SolveSt) (hInv : Inv chosen remaining st) (hrem : remaining ≠ []) :
    chosen.length ≤ 14 := by
  obtain ⟨vs, hmap, hnd, hiff⟩ := hInv.assigned
  have hlen : vs.length = chosen.length := by
    have h := congrArg List.length hmap
    simp only [List.length_map] at h
    omega
  obtain ⟨x, hx⟩ := List.exists_mem_of_ne_nil remaining hrem
  have hxvs : x ∉ vs := fun h => (hiff x).mp h hx
  have hle : vs.length ≤ Fintype.card KeyItems := hnd.length_le_card
  rw [card_keyItems] at hle
  by_contra hgt
  have h15 : vs.length = 15 := by omega
  have huniv : vs.toFinset = Finset.univ :=
    Finset.eq_univ_of_card vs.toFinset
      (by rw [List.toFinset_card_of_nodup hnd, h15, card_keyItems])
  exact hxvs (by rw [← List.mem_toFinset, huniv]; exact Finset.mem_univ x)

lemma inv_final (chosen : List Location) (st : SolveSt)
    (hInv : Inv chosen [] st) : SolveOk chosen st := by
  obtain ⟨vs, hmap, hnd, hiff⟩ := hInv.assigned
  have hall : ∀ v : KeyItems, v ∈ vs := fun v => (hiff v).mpr (by simp)
  have hperm : vs.Perm allKeyItems :=
    List.Subperm.antisymm
      (hnd.subperm (fun v _ => all_mem_allKeyItems v))
      (allKeyItems_nodup.subperm (fun v _ => hall v))
  refine ⟨?_, hInv.chosenNodup, ?_⟩
  · have h1 := congrArg List.length hmap
    simp only [List.length_map] at h1
    have h2 := hperm.length_eq
    have h3 : allKeyItems.length = 15 := rfl
    omega
  · rw [hmap]
    exact hperm.map some

lemma inv_avail_nonempty (chosen : List Location) (remaining : List KeyItems)
    (st : SolveSt) (hInv : Inv chosen remaining st) (hrem : remaining ≠ [])
    (gm : Game) :
    (List.range st.registry.length).filter (fun i =>
      match st.registry.get? i with
      | some g => g.canAccess gm && decide (0 < g.getAvailableLocationCount)
      | none => false) ≠ [] := by
  have hle : chosen.length ≤ 14 := inv_chosen_le14 _ _ _ hInv hrem
  have hpos : 0 < sixSum st.registry := by
    have := hInv.sixCnt
    omega
  have hpos' : 0 < (alwaysIdx.map
      (fun i => ((st.registry.get? i).map (fun g => g.locations.length)).getD 0)).sum := hpos
  obtain ⟨i, hi, hfi⟩ := sum_pos_exists alwaysIdx
    (fun i => ((st.registry.get? i).map (fun g => g.locations.length)).getD 0) hpos'
  obtain ⟨g, hg, hrule⟩ := hInv.six i hi
  have hlen : 0 < g.locations.length := by
    rw [hg] at hfi
    simpa using hfi
  apply List.ne_nil_of_mem (a := i)
  rw [List.mem_filter]
  refine ⟨?_, ?_⟩
  · rw [List.mem_range]; exact lt_of_get?_some hg
  · rw [hg]
    simp [LocationGroup.canAccess, LocationGroup.getAvailableLocationCount,
      hrule gm, hlen]

lemma inv_set_game (chosen : List Location) (remaining : List KeyItems)
    (st : SolveSt) (gm : Game) (hInv : Inv chosen remaining st) :
    Inv chosen remaining { st with game := gm } :=
  ⟨hInv.nodupPtrs, hInv.disj, hInv.chosenNodup, hInv.assigned, hInv.six,
   hInv.sixCnt⟩

/-!  Selection lemmas. -/

lemma selectIdxAux_mem (reg : List LocationGroup) (choice : Nat) :
    ∀ (counter : Nat) (avail : List Nat), avail ≠ [] →
      selectIdxAux reg choice counter avail ∈ avail := by
  intro counter avail
  induction avail generalizing counter with
  | nil => intro h; exact absurd rfl h
  | cons i rest ih =>
    intro _
    cases rest with
    | nil => simp [selectIdxAux]
    | cons j rest' =>
      rw [selectIdxAux]
      · split
        · exact List.mem_cons_self _ _
        · exact List.mem_cons_of_mem _ (ih _ (List.cons_ne_nil j rest'))
      · exact List.cons_ne_nil j rest'

lemma selected_ok (st : SolveSt) (avail : List Nat) (hAv : AvailOk avail st)
    (hne : avail ≠ []) (choice counter : Nat) :
    ∃ g, st.registry.get? (selectIdxAux st.registry choice counter avail) = some g ∧
      g.canAccess st.game = true ∧ 0 < g.locations.length := by
  have hmem := selectIdxAux_mem st.registry choice counter avail hne
  set x := selectIdxAux st.registry choice counter avail with hx
  rw [hAv, List.mem_filter] at hmem
  obtain ⟨hrange, hpred⟩ := hmem
  cases hget : st.registry.get? x with
  | none => rw [hget] at hpred; exact absurd hpred (by simp)
  | some g =>
    rw [hget] at hpred
    simp only [Bool.and_eq_true, decide_eq_true_eq,
      LocationGroup.getAvailableLocationCount] at hpred
    exact ⟨g, rfl, hpred.1, hpred.2⟩

lemma selected_get_ne_none (st : SolveSt) (avail : List Nat)
    (hAv : AvailOk avail st) (hne : avail ≠ []) (choice counter : Nat) :
    st.registry.get? (selectIdxAux st.registry choice counter avail) ≠ none := by
  obtain ⟨g, hg, -, -⟩ := selected_ok st avail hAv hne choice counter
  rw [hg]
  exact fun h => Option.noConfusion h

lemma selected_len_pos (st : SolveSt) (avail : List Nat)
    (hAv : AvailOk avail st) (hne : avail ≠ []) (choice counter : Nat)
    (g : LocationGroup)
    (hg : st.registry.get? (selectIdxAux st.registry choice counter avail) = some g) :
    0 < g.locations.length := by
  obtain ⟨g', hg', -, hlen⟩ := selected_ok st avail hAv hne choice counter
  rw [hg'] at hg
  injection hg with hgg
  rw [← hgg]
  exact hlen

lemma mem_of_get?_some {α : Type} :
    ∀ {l : List α} {i : Nat} {a : α}, l.get? i = some a → a ∈ l := by
  intro l
  induction l with
  | nil => intro i a h; cases i <;> exact Option.noConfusion h
  | cons b t ih =>
    intro i a h
    cases i with
    | zero =>
      have hb : b = a := by injection h
      exact hb ▸ List.mem_cons_self _ _
    | succ j => exact List.mem_cons_of_mem _ (ih h)

/-- One iteration of the retry loop, entered without a pending undo, always
reaches the recursive call: none of the draws hits an empty list. -/
lemma iteration_some (chosen : List Location) (remaining : List KeyItems)
    (st : SolveSt) (avail : List Nat)
    (hInv : Inv chosen remaining st) (hrem : remaining ≠ [])
    (hAv : AvailOk avail st) :
    (doIteration chosen remaining st avail none).isSome = true := by
  have hne : avail ≠ [] := by
    rw [hAv]
    exact inv_avail_nonempty chosen remaining st hInv hrem _
  simp only [doIteration]
  split
  · rename_i hg
    exact absurd hg (selected_get_ne_none st avail hAv hne _ _)
  · rename_i g hg
    split
    · rename_i hloc
      have hlen : 0 < g.getLocations.length :=
        selected_len_pos st avail hAv hne _ _ g hg
      rw [List.get?_eq_none] at hloc
      have hmod := Nat.mod_lt (nextRand (nextRand st.rng).2).1 hlen
      omega
    · rename_i loc hloc
      split
      · rename_i hk
        have hlen3 : 0 < (collapseStep st.game remaining).length :=
          List.length_pos.mpr (collapseStep_ne_nil st.game remaining hrem)
        rw [List.get?_eq_none] at hk
        have hmod := Nat.mod_lt (nextRand (nextRand (nextRand st.rng).2).2).1 hlen3
        omega
      · rfl

/-- One iteration of the retry loop, entered without a pending undo,
preserves the solver invariant into the recursive call and grows
chosenLocations by exactly the drawn location. -/
lemma iteration_inv (chosen : List Location) (remaining : List KeyItems)
    (st : SolveSt) (avail : List Nat)
    (hInv : Inv chosen remaining st) (_hrem : remaining ≠ [])
    (_hAv : AvailOk avail st)
    (chosen1 : List Location) (remaining3 : List KeyItems) (st1 : SolveSt)
    (gi : Nat) (loc : Location) (k : KeyItems)
    (heq : doIteration chosen remaining st avail none
      = some (chosen1, remaining3, st1, gi, loc, k)) :
    Inv chosen1 remaining3 st1 ∧ chosen1.length = chosen.length + 1 := by
  simp only [doIteration] at heq
  split at heq
  · exact Option.noConfusion heq
  · rename_i g hg
    split at heq
    · exact Option.noConfusion heq
    · rename_i loc' hloc
      split at heq
      · exact Option.noConfusion heq
      · rename_i k' hk
        injection heq with heq
        simp only [Prod.mk.injEq] at heq
        obtain ⟨h1, h2, h3, h4, h5, h6⟩ := heq
        subst h1; subst h2; subst h3; subst h4; subst h5; subst h6
        -- facts about the drawn location and key item
        have hmem : loc' ∈ g.locations := mem_of_get?_some hloc
        have hkmem : k' ∈ remaining :=
          (collapseStep_mem _ _ _).mp (mem_of_get?_some hk)
        obtain ⟨hnd1, hnot1, hmono1⟩ :=
          registry_set_erase st.registry _ g ((g.removeLocation loc').decayWeight)
            loc' hg hmem (stepGroup_locations g loc') hInv.nodupPtrs
        have hpin : loc'.pointer ∈ regPtrs st.registry :=
          mem_regPtrs_of_get? st.registry _ g loc' hg hmem
        have hptr_ne : ∀ l ∈ chosen, l.pointer ≠ loc'.pointer :=
          fun l hl he => hInv.disj l hl (he ▸ hpin)
        refine ⟨⟨hnd1, ?_, ?_, ?_, ?_, ?_⟩, by simp⟩
        · -- disj
          intro l hl
          rcases List.mem_append.mp hl with hl' | hl'
          · exact fun hp => hInv.disj l hl' (hmono1 _ hp)
          · rw [List.mem_singleton] at hl'
            subst hl'
            exact hnot1
        · -- chosenNodup
          rw [List.map_append, List.nodup_append]
          refine ⟨hInv.chosenNodup, by simp, ?_⟩
          intro p hp hp'
          simp only [List.map_cons, List.map_nil, List.mem_singleton] at hp'
          obtain ⟨l, hl, rfl⟩ := List.mem_map.mp hp
          exact hptr_ne l hl hp'
        · -- assigned
          obtain ⟨vs, hmap, hnd, hiff⟩ := hInv.assigned
          have hk'vs : k' ∉ vs := fun h => (hiff k').mp h hkmem
          refine ⟨vs ++ [k'], ?_, ?_, ?_⟩
          · rw [List.map_append, List.map_append]
            have hcongr : ∀ l ∈ chosen,
                kiLookup ((loc'.pointer, k') :: st.kiMap) l.pointer
                  = kiLookup st.kiMap l.pointer := by
              intro l hl
              rw [kiLookup_cons, if_neg (fun he => absurd he.symm (hptr_ne l hl))]
            rw [show chosen.map (fun l => kiLookup ((loc'.pointer, k') :: st.kiMap) l.pointer)
                  = chosen.map (fun l => kiLookup st.kiMap l.pointer) from
                List.map_congr_left hcongr, hmap]
            simp [kiLookup_cons]
          · rw [List.nodup_append]
            refine ⟨hnd, by simp, ?_⟩
            intro v hv hv'
            rw [List.mem_singleton] at hv'
            exact hk'vs (hv' ▸ hv)
          · intro v
            rw [List.mem_append, List.mem_singleton]
            constructor
            · rintro (hv | rfl)
              · intro hvmem
                obtain ⟨hv1, -⟩ := (postDrawPool_none_mem _ _ _).mp hvmem
                exact (hiff v).mp hv ((collapseStep_mem _ _ _).mp hv1)
              · intro hvmem
                obtain ⟨-, hne'⟩ := (postDrawPool_none_mem _ _ _).mp hvmem
                exact hne' rfl
            · intro hv
              by_cases hvk : v = k'
              · exact Or.inr hvk
              · refine Or.inl ((hiff v).mpr ?_)
                intro hvr
                exact hv ((postDrawPool_none_mem _ _ _).mpr
                  ⟨(collapseStep_mem _ _ _).mpr hvr, hvk⟩)
        · -- six
          exact six_set st.registry _ g _ hg (stepGroup_accessRule g loc') hInv.six
        · -- sixCnt
          have hlenpos : 0 < g.locations.length :=
            List.length_pos.mpr (List.ne_nil_of_mem hmem)
          have herase := List.length_erase_of_mem hmem
          have hsix := sixSum_set st.registry _ g ((g.removeLocation loc').decayWeight)
            hg (by rw [stepGroup_locations, herase]; omega)
          have hc := hInv.sixCnt
          simp only [List.length_append, List.length_cons, List.length_nil]
          omega

set_option maxHeartbeats 1600000 in
/-- The induction: under the invariant, impl never reports failure, every
success is a bijective placement, and fuel 2·(15 − placed) + 1 suffices. -/
lemma main_induction : ∀ n : Nat, MainP n ∧ LoopP n := by
  intro n
  induction n with
  | zero =>
    constructor
    · intro chosen remaining st _hInv
      refine ⟨?_, ?_, ?_⟩
      · intro locs st' h; exact Option.noConfusion h
      · intro locs st' h; exact Option.noConfusion h
      · intro hf; exact absurd hf (by omega)
    · intro chosen remaining st avail hInv hrem _hAv
      refine ⟨?_, ?_, ?_⟩
      · intro locs st' h; exact Option.noConfusion h
      · intro locs st' h; exact Option.noConfusion h
      · intro hf
        have := inv_chosen_le14 _ _ _ hInv hrem
        exact absurd hf (by omega)
  | succ n ih =>
    obtain ⟨ihM, ihL⟩ := ih
    constructor
    · -- MainP (n + 1)
      intro chosen remaining st hInv
      by_cases hrem : remaining = []
      · subst hrem
        have himpl : impl (n + 1) chosen [] st = some (true, chosen, st) := by
          simp [impl]
        refine ⟨?_, ?_, ?_⟩
        · intro locs st' h; rw [himpl] at h; simp at h
        · intro locs st' h
          rw [himpl] at h
          injection h with h
          simp only [Prod.mk.injEq] at h
          obtain ⟨-, h2, h3⟩ := h
          rw [← h2, ← h3]
          exact inv_final chosen st hInv
        · intro _; rw [himpl]; rfl
      · have havail : (getAvailableLocations st.game st.registry).2 ≠ [] :=
          inv_avail_nonempty chosen remaining st hInv hrem _
        have himpl : impl (n + 1) chosen remaining st
            = implLoop n chosen remaining
                { st with game := (getAvailableLocations st.game st.registry).1 }
                (getAvailableLocations st.game st.registry).2 none none := by
          simp only [impl]
          rw [if_neg hrem, if_neg havail]
        have hInv1 : Inv chosen remaining
            { st with game := (getAvailableLocations st.game st.registry).1 } :=
          inv_set_game chosen remaining st _ hInv
        have hAv1 : AvailOk (getAvailableLocations st.game st.registry).2
            { st with game := (getAvailableLocations st.game st.registry).1 } := rfl
        obtain ⟨L1, L2, L3⟩ := ihL chosen remaining _ _ hInv1 hrem hAv1
        refine ⟨?_, ?_, ?_⟩
        · intro locs st' h; rw [himpl] at h; exact L1 locs st' h
        · intro locs st' h; rw [himpl] at h; exact L2 locs st' h
        · intro hf; rw [himpl]; exact L3 (by omega)
    · -- LoopP (n + 1)
      intro chosen remaining st avail hInv hrem hAv
      have hson := iteration_some chosen remaining st avail hInv hrem hAv
      obtain ⟨out, hout⟩ := Option.isSome_iff_exists.mp hson
      obtain ⟨c1, r3, s1, gi, loc, k⟩ := out
      obtain ⟨hInv1, hlen1⟩ :=
        iteration_inv chosen remaining st avail hInv hrem hAv c1 r3 s1 gi loc k hout
      have hloop : implLoop (n + 1) chosen remaining st avail none none
          = match impl n c1 r3 s1 with
            | none => none
            | some (confirmed, ret, st2) =>
              if confirmed then some (true, ret, st2)
              else implLoop n c1 r3 st2 avail (some (gi, loc)) (some k) := by
        simp only [implLoop, undoPrev]
        rw [hout]
      obtain ⟨M1, M2, M3⟩ := ihM c1 r3 s1 hInv1
      have hle14 := inv_chosen_le14 _ _ _ hInv hrem
      refine ⟨?_, ?_, ?_⟩
      · intro locs st' h
        rw [hloop] at h
        cases himp : impl n c1 r3 s1 with
        | none => rw [himp] at h; simp at h
        | some res =>
          obtain ⟨confirmed, ret, st2⟩ := res
          rw [himp] at h
          cases confirmed with
          | true => simp at h
          | false => exact absurd himp (M1 ret st2)
      · intro locs st' h
        rw [hloop] at h
        cases himp : impl n c1 r3 s1 with
        | none => rw [himp] at h; simp at h
        | some res =>
          obtain ⟨confirmed, ret, st2⟩ := res
          rw [himp] at h
          cases confirmed with
          | false => exact absurd himp (M1 ret st2)
          | true =>
            simp only [if_pos] at h
            injection h with h
            simp only [Prod.mk.injEq] at h
            obtain ⟨-, h2, h3⟩ := h
            rw [← h2, ← h3]
            exact M2 ret st2 himp
      · intro hf
        rw [hloop]
        have hchild : (impl n c1 r3 s1).isSome = true := by
          apply M3
          rw [hlen1]
          omega
        obtain ⟨res, hres⟩ := Option.isSome_iff_exists.mp hchild
        obtain ⟨confirmed, ret, st2⟩ := res
        rw [hres]
        cases confirmed with
        | false => exact absurd hres (M1 ret st2)
        | true => rfl

/-- The invariant holds at the top-level call of the solver. -/
lemma inv_init (charlocs : CharSlots) (lc ep : Bool) (rng : List Nat) :
    Inv [] getInitialKeyItems
      ⟨initLocationGroups, Game.init charlocs lc ep, [], rng⟩ := by
  refine ⟨regPtrs_init_nodup, ?_, ?_, ?_, ?_, ?_⟩
  · intro l hl; simp at hl
  · simp
  · refine ⟨[], by simp, by simp, ?_⟩
    intro v
    simp [all_mem_getInitialKeyItems v]
  · intro i hi
    simp only [alwaysIdx, List.mem_cons, List.not_mem_nil, or_false] at hi
    rcases hi with rfl | rfl | rfl | rfl | rfl | rfl
    · exact ⟨openLocations, rfl, fun gm => rfl⟩
    · exact ⟨openKeys, rfl, fun gm => rfl⟩
    · exact ⟨heckranLocations, rfl, fun gm => rfl⟩
    · exact ⟨cathedralLocations, rfl, fun gm => rfl⟩
    · exact ⟨guardiaCastleLocations, rfl, fun gm => rfl⟩
    · exact ⟨denadoroLocations, rfl, fun gm => rfl⟩
  · have h := sixSum_init
    simp only [List.length_nil]
    omega

/-- C1: for every successful run of determineKeyItemPlacement (success flag
true, any fuel, any character-slot mapping, flags and random stream), the
returned placement list is a bijection between the 15 KeyItem variants and
15 distinct Locations: it has 15 entries, the location pointers are pairwise
distinct, and the key items assigned to the listed locations enumerate the
15 variants exactly once (a permutation of the full variant list) — so no
variant is missing or duplicated, no location appears twice, and no
location of an abandoned branch pollutes the list. -/
theorem determineKeyItemPlacement_success_bijection
    (fuel : Nat) (charlocs : CharSlots) (lc ep : Bool) (rng : List Nat)
    (locs : List Location) (st' : SolveSt)
    (h : determineKeyItemPlacement fuel charlocs lc ep rng = some (true, locs, st')) :
    SolveOk locs st' := by
  have hm := (main_induction fuel).1 [] getInitialKeyItems
    ⟨initLocationGroups, Game.init charlocs lc ep, [], rng⟩
    (inv_init charlocs lc ep rng)
  exact hm.2.1 locs st' h

/-- Witness for C1: the concrete run run0 (fuel 40, all-zero random stream,
concrete slot mapping) succeeds and its output is a bijective placement. -/
theorem determineKeyItemPlacement_success_bijection_witness :
    SolveOk run0res.2.1 run0res.2.2 := by
  have hm := (main_induction 40).1 [] getInitialKeyItems
    ⟨initLocationGroups, Game.init cl0 false false, [], rng0⟩
    (inv_init cl0 false false rng0)
  have hsome : (determineKeyItemPlacement 40 cl0 false false rng0).isSome = true :=
    hm.2.2 (by simp only [List.length_nil]; omega)
  obtain ⟨res, hres⟩ := Option.isSome_iff_exists.mp hsome
  obtain ⟨b, locs, st'⟩ := res
  cases b with
  | false => exact absurd hres (hm.1 locs st')
  | true =>
    have hr : run0res = (true, locs, st') := by
      rw [show run0res = run0.getD (false, [], defaultSt) from rfl,
          show run0 = determineKeyItemPlacement 40 cl0 false false rng0 from rfl,
          hres]
      rfl
    rw [hr]
    exact determineKeyItemPlacement_success_bijection 40 cl0 false false rng0
      locs st' hres

/-- C9: the recursion of determineKeyItemPlacement_impl is depth-bounded by
15: (i) the initial pool holds exactly 15 distinct variants; (ii) the pool
handed to the recursive call by a first iteration at a depth has exactly one
distinct variant fewer than the pool at entry (all tokens of the drawn
variant are removed before recursing); (iii) the pool handed on by a retry
iteration keeps that count unchanged, because the retry re-adds only the
variant already drawn (and fully consumed) at this depth; and (iv)
operationally, fuel 31 = 2·15 + 1 — charging one step per nesting level and
one per loop entry — suffices for determineKeyItemPlacement to return on
every input and random stream, so the nesting depth never exceeds 15. -/
theorem recursion_depth_bound :
    getInitialKeyItems.toFinset.card = 15 ∧
    (∀ (game : Game) (remaining : List KeyItems) (k : KeyItems),
      k ∈ collapseStep game remaining →
      (postDrawPool (collapseStep game remaining) k none).toFinset.card + 1
        = remaining.toFinset.card) ∧
    (∀ (game : Game) (remaining : List KeyItems) (k kt : KeyItems),
      k ∈ collapseStep game remaining → kt ∉ remaining →
      (postDrawPool (collapseStep game remaining) k (some kt)).toFinset.card
        = remaining.toFinset.card) ∧
    (∀ (fuel : Nat) (charlocs : CharSlots) (lc ep : Bool) (rng : List Nat),
      31 ≤ fuel → (determineKeyItemPlacement fuel charlocs lc ep rng).isSome) := by
  refine ⟨by decide, ?_, ?_, ?_⟩
  · intro game remaining k hk
    rw [postDrawPool_none_toFinset, collapseStep_toFinset]
    have hkr : k ∈ remaining.toFinset := by
      rw [List.mem_toFinset]
      exact (collapseStep_mem _ _ _).mp hk
    rw [Finset.card_erase_of_mem hkr]
    have hpos : 0 < remaining.toFinset.card := Finset.card_pos.mpr ⟨k, hkr⟩
    omega
  · intro game remaining k kt hk hkt
    rw [postDrawPool_some_toFinset, collapseStep_toFinset]
    have hkr : k ∈ remaining.toFinset := by
      rw [List.mem_toFinset]
      exact (collapseStep_mem _ _ _).mp hk
    have hktr : kt ∉ remaining.toFinset.erase k :=
      fun hmem => hkt (List.mem_toFinset.mp (Finset.mem_of_mem_erase hmem))
    rw [Finset.card_insert_of_not_mem hktr, Finset.card_erase_of_mem hkr]
    have hpos : 0 < remaining.toFinset.card := Finset.card_pos.mpr ⟨k, hkr⟩
    omega
  · intro fuel charlocs lc ep rng h31
    have hm := (main_induction fuel).1 [] getInitialKeyItems
      ⟨initLocationGroups, Game.init charlocs lc ep, [], rng⟩
      (inv_init charlocs lc ep rng)
    apply hm.2.2
    simp only [List.length_nil]
    omega

/-- Witness for C9 at concrete inputs: a first-iteration draw from a
concrete two-token pool drops the distinct-variant count by one, and the
concrete solver run with fuel 40 returns. -/
theorem recursion_depth_bound_witness :
    (postDrawPool (collapseStep game10 [KeyItems.grandleon, KeyItems.grandleon])
        KeyItems.grandleon none).toFinset.card + 1
      = ([KeyItems.grandleon, KeyItems.grandleon] : List KeyItems).toFinset.card ∧
    (determineKeyItemPlacement 40 cl0 false false rng0).isSome :=
  ⟨recursion_depth_bound.2.1 game10 [KeyItems.grandleon, KeyItems.grandleon]
      KeyItems.grandleon (by decide),
   recursion_depth_bound.2.2.2 40 cl0 false false rng0 (by omega)⟩

end Chronosanity
